import Mathlib

/-
Verification of the pyracf frame-filter core (frame_filter.py): the criterion
filter engine `_frameFilter` and the profile resolver `match`, shallowly
embedded over an explicit table model.  Cell and index values are strings; the
external collaborators (the generic-pattern-to-regex translator and the regex
engine of the tabular library) are abstract parameters bundled in `Regex`,
matching the spec's black-box contract for them.
-/

namespace PyRACF

/-- Abstract interface of the external collaborators: `g2r` is the
generic-pattern translator (`generic2regex`), `rmatch p s` is an anchored
regex match of pattern `p` against the start of `s` (`re.match(p, s) != None`,
also `Series.str.match`), and `rsearch p s` is an unanchored regex search
(`Series.str.contains`). -/
structure Regex where
  g2r : String → String
  rmatch : String → String → Bool
  rsearch : String → String → Bool

/-- A table row: its index entry (one value per index level) and its cell
values, positionally aligned with the frame's column names. -/
structure Row where
  idx : List String
  cells : List String
deriving DecidableEq, Repr

/-- A ProfileFrame: column names, the optional `_fieldPrefix` attribute, the
index level names (`df.index.names`), and the ordered rows. -/
structure Frame where
  columns : List String
  fieldPrefix : Option String
  indexNames : List String
  rows : List Row
deriving DecidableEq, Repr

/-- A selection value as `_frameFilter` receives it: Python `None`, a plain
string, a compiled `re.Pattern` (carrying its pattern text), or a list of
strings. -/
inductive SelVal where
  | noneV : SelVal
  | str : String → SelVal
  | pattern : String → SelVal
  | list : List String → SelVal
deriving DecidableEq, Repr

/-- A positional argument of `match`: a single name or a list of names
(for the general-resource class position, a class label or list of labels). -/
inductive Arg where
  | s : String → Arg
  | l : List String → Arg
deriving DecidableEq, Repr

/-- The error taxonomy of the two routines.  `unknownCriterion` carries the
keyword and the alias keys enumerated in its message; `unsupportedMatch` is
the TypeError for `match` on a frame that is not DS or GR; `invalidArguments`
is the TypeError for a wrong arity; `invalidName` is the ValueError for an
unqualified dataset name (carrying the offending name, as the message does);
`typeError` covers the remaining Python-level type failures, `keyError` a
missing column and `indexError` an out-of-bounds positional lookup. -/
inductive Err where
  | unknownCriterion : String → List String → Err
  | unsupportedMatch : Err
  | invalidArguments : String → Err
  | invalidName : String → Err
  | typeError : String → Err
  | keyError : String → Err
  | indexError : Err
deriving DecidableEq, Repr

/-- Substring test on characters, the semantics of Python's `in` on strings
(used by `DataFrame.filter(like=..., axis=0)`). -/
def infixOfAux (sub : List Char) : List Char → Bool
  | [] => sub.isEmpty
  | c :: cs => sub.isPrefixOf (c :: cs) || infixOfAux sub cs

/-- Python `sub in s`. -/
def strContains (s sub : String) : Bool :=
  infixOfAux sub.toList s.toList

/-- The skip markers of `_frameFilter`: `skipSelect = (None,'**','.*') if
regexPattern else (None,'**')`, membership tested with `==`, which no Pattern
object or list ever satisfies. -/
def skipSel (regexPattern : Bool) : SelVal → Bool
  | SelVal.noneV => true
  | SelVal.str s => s == "**" || (regexPattern && s == ".*")
  | _ => false

/-- Value of index level `s` of a row (`df.index.get_level_values(s)` at that
row). -/
def idxVal (r : Row) (s : Nat) : String :=
  r.idx.getD s ""

/-- Value of a named column at a row (`df[column]` at that row). -/
def colVal (cols : List String) (c : String) (r : Row) : String :=
  match cols.findIdx? (fun x => x == c) with
  | some i => r.cells.getD i ""
  | Option.none => ""

/-- Whether a selection value is a compiled pattern (`isinstance(sel,
re.Pattern)`). -/
def isPat : SelVal → Bool
  | SelVal.pattern _ => true
  | _ => false

/-- Character-list versions of the Python string operations (`in`, indexing,
slicing, startswith, join), kept structural so concrete inputs evaluate
inside the kernel. -/
def chContains (s : String) (c : Char) : Bool := s.toList.contains c

/-- Python `s[0]` (only read behind a length guard). -/
def strFront (s : String) : Char := s.toList.headD 'A'

/-- Python `s[-1]` (only read behind a length guard). -/
def strBack (s : String) : Char := s.toList.getLastD 'A'

/-- Python `len(s)`. -/
def strLen (s : String) : Nat := s.toList.length

/-- Python `s[n:]`. -/
def strDrop (s : String) (n : Nat) : String := String.mk (s.toList.drop n)

/-- Python `s[:-n]`. -/
def strDropRight (s : String) (n : Nat) : String :=
  String.mk (s.toList.take (s.toList.length - n))

/-- Python `s[:n]`. -/
def strTake (s : String) (n : Nat) : String := String.mk (s.toList.take n)

/-- Python `s.startswith(p)`. -/
def strStarts (p s : String) : Bool := p.toList.isPrefixOf s.toList

/-- Python `sep.join(l)`. -/
def sepJoin (sep : String) : List String → String
  | [] => ""
  | [x] => x
  | x :: xs => x ++ sep ++ sepJoin sep xs

/-- The shape test `len(sel)>2 and sel[0]=='*' and sel[-1]=='*' and
sel[1:-1].find('*')==-1` for a `*substring*` criterion. -/
def starWrapped (t : String) : Bool :=
  decide (2 < strLen t) && strFront t == '*' && strBack t == '*'
    && !chContains (strDropRight (strDrop t 1) 1) '*'

/-- The `sel=='*' or (sel.find('*')==-1 and sel.find('%')==-1)` test choosing
plain equality. -/
def plainEq (t : String) : Bool :=
  t == "*" || (!chContains t '*' && !chContains t '%')

/-- Row mask of one index-level criterion (source lines 39-46).  A list value
reaches string methods it does not have and fails, as in Python. -/
def idxMask (R : Regex) (regexPattern : Bool) (s : Nat) (sel : SelVal) :
    Except Err (Row → Bool) :=
  if regexPattern || isPat sel then
    match sel with
    | SelVal.str t => .ok fun r => R.rmatch t (idxVal r s)
    | SelVal.pattern p => .ok fun r => R.rmatch p (idxVal r s)
    | _ => .error (.typeError "str.match expects a string or compiled pattern")
  else
    match sel with
    | SelVal.str t =>
      if starWrapped t then
        .ok fun r => R.rsearch (strDropRight (strDrop t 1) 1) (idxVal r s)
      else if plainEq t then
        .ok fun r => idxVal r s == t
      else
        .ok fun r => R.rmatch (R.g2r t) (idxVal r s)
    | SelVal.list _ => .error (.typeError "a list has no string methods")
    | _ => .error (.typeError "skip markers never reach mask evaluation")

/-- Row mask of one column-bound criterion (source lines 80-100), after the
column name has been resolved; `df[column]` itself fails when the column is
absent. -/
def colMask (R : Regex) (regexPattern : Bool) (cols : List String)
    (column : String) (sel : SelVal) : Except Err (Row → Bool) :=
  if !cols.contains column then .error (.keyError column)
  else if regexPattern || isPat sel then
    match sel with
    | SelVal.str t => .ok fun r => R.rmatch t (colVal cols column r)
    | SelVal.pattern p => .ok fun r => R.rmatch p (colVal cols column r)
    | _ => .error (.typeError "str.match expects a string or compiled pattern")
  else
    match sel with
    | SelVal.str t =>
      if t == "**" then
        .ok fun r => colVal cols column r != ""
      else if starWrapped t then
        .ok fun r => R.rsearch (strDropRight (strDrop t 1) 1) (colVal cols column r)
      else if plainEq t then
        .ok fun r => colVal cols column r == t
      else
        .ok fun r => R.rmatch (R.g2r t) (colVal cols column r)
    | SelVal.list l =>
      if l.any (fun x => x.contains '*' || x.contains '%') then
        .ok fun r => R.rmatch (sepJoin "|" (l.map R.g2r)) (colVal cols column r)
      else
        .ok fun r => l.contains (colVal cols column r)
    | SelVal.noneV => .ok fun _ => false
    | SelVal.pattern _ => .ok fun _ => false

/-- Resolution of one keyword criterion that is not the literal `match`
(source lines 68-78): the alias table, then an exact column name, then the
schema-prefixed column name; otherwise the unknown-criterion error whose
message enumerates the alias keys when any exist. -/
def resolveKwd (kwdValues : List (String × String)) (cols : List String)
    (pre : Option String) (kwd : String) (sel : SelVal) :
    Except Err (String × SelVal) :=
  match kwdValues.lookup kwd with
  | some col => .ok (col, sel)
  | Option.none =>
    if cols.contains kwd then .ok (kwd, sel)
    else
      match pre with
      | some p =>
        if cols.contains (p ++ kwd) then .ok (p ++ kwd, sel)
        else .error (.unknownCriterion kwd (kwdValues.map (fun q => q.1)))
      | Option.none => .error (.unknownCriterion kwd (kwdValues.map (fun q => q.1)))

/-- Modelled from the spec: `normalizeToList` (`listMe` of the excluded list
utilities) wraps a scalar as a one-element sequence and passes a sequence
through. -/
def listMe : Arg → List String
  | Arg.s v => [v]
  | Arg.l vs => vs

/-- The leading qualifier `sel[0:sel.find('.')+1]` of a dataset name: up to
and including the first dot, empty when the name holds no dot. -/
def leadQual (s : String) : String :=
  if chContains s '.' then String.mk (s.toList.takeWhile (fun c => c != '.') ++ ['.']) else ""

/-- The string form of a row's index label as `DataFrame.filter` sees it:
the level value itself for a single-level index, `str()` of the label tuple
for a multi-level index. -/
def labelStr (nLevels : Nat) (r : Row) : String :=
  if nLevels == 1 then idxVal r 0
  else "(" ++ sepJoin ", " (r.idx.map (fun v => "'" ++ v ++ "'")) ++ ")"

/-- `df.filter(like=like, axis=0)`: keep the rows whose index label, as a
string, contains `like` as a substring. -/
def filterLike (df : Frame) (like : String) : Frame :=
  { df with rows := df.rows.filter (fun r => strContains (labelStr df.indexNames.length r) like) }

/-- The per-row test of `[re.match(x,sel)!=None for x in rows[nameCol].apply(generic2regex)]`. -/
def nameMatchPred (R : Regex) (cols : List String) (nameCol sel : String) : Row → Bool :=
  fun r => R.rmatch (R.g2r (colVal cols nameCol r)) sel

/-- Select the rows whose profile-name column, translated to a pattern,
matches the queried name; `rows[nameCol]` fails when the column is absent. -/
def nameColFilter (R : Regex) (cols : List String) (nameCol sel : String)
    (rows : List Row) : Except Err (List Row) :=
  if cols.contains nameCol then .ok (rows.filter (nameMatchPred R cols nameCol sel))
  else .error (.keyError nameCol)

/-- The dataset result selection `result.head(1) if len(result.index.names)==1
else result.loc[[result.index[0][0]]]` (source line 173): one profile row for a
single-level index, all rows under the first row's leading index key for a
multi-level index — which indexes an empty frame when no row matched. -/
def dsSelect (df : Frame) (filtered : List Row) : Except Err Frame :=
  if df.indexNames.length == 1 then .ok { df with rows := filtered.take 1 }
  else
    match filtered with
    | [] => .error .indexError
    | r0 :: _ => .ok { df with rows := filtered.filter (fun r => idxVal r 0 == idxVal r0 0) }

/-- One iteration of the dataset loop of `match` (source lines 165-175) for a
single queried name: returns the zero or one frames it appends. -/
def dsMatchOne (R : Regex) (df : Frame) (pre sel : String) : Except Err (List Frame) :=
  let qualp := leadQual sel
  if qualp == "" then .error (.invalidName sel)
  else
    let result := filterLike df qualp
    if result.rows.isEmpty then .ok []
    else do
      let rows ← nameColFilter R df.columns (pre ++ "NAME") sel result.rows
      let f ← dsSelect df rows
      .ok [f]

/-- The class-precedence walk of the general-resource branch (source lines
192-198): one Boolean per row, true when the row's class and resource equal
the pair recorded at the first row of the current contiguous class run.  The
walk unpacks each index entry into at least two levels, and reads the
resource of the previous run before one exists if the very first class label
equals the initial `prevClass = ''`. -/
def classLocs : String → Option String → List Row → Except Err (List Bool)
  | _, _, [] => .ok []
  | pc, pr, r :: rs =>
    if decide (r.idx.length < 2) then .error (.typeError "cannot unpack index entry")
    else
      let i0 := idxVal r 0
      let i1 := idxVal r 1
      if i0 != pc then do
        let rest ← classLocs i0 (some i1) rs
        .ok (true :: rest)
      else
        match pr with
        | Option.none => .error (.typeError "prevResource referenced before assignment")
        | some prv => do
          let rest ← classLocs pc pr rs
          .ok ((i1 == prv) :: rest)

/-- `frame.loc[locs]` for a Boolean list `locs` aligned with `rows`. -/
def maskRows (rows : List Row) (locs : List Bool) : List Row :=
  ((rows.zip locs).filter (fun q => q.2)).map (fun q => q.1)

/-- One iteration of the general-resource loop of `match` (source lines
189-199) for a single queried name. -/
def grMatchOne (R : Regex) (start : Frame) (pre sel : String) : Except Err Frame := do
  let rows ← nameColFilter R start.columns (pre ++ "NAME") sel start.rows
  let locs ← classLocs "" Option.none rows
  .ok { start with rows := maskRows rows locs }

/-- Modelled from the spec: the `find` method of ProfileFrames is not part of
this source file; per the spec it is the Criterion Filter Engine in select
mode with positional criteria bound to index levels, so a single class-label
criterion is one index-level narrowing step at level 0. -/
def find (R : Regex) (df : Frame) (cls : String) : Except Err Frame := do
  let m ← idxMask R false 0 (SelVal.str cls)
  .ok { df with rows := df.rows.filter m }

/-- The scope of a two-argument general-resource `match` (source lines
181-184): a string class label is narrowed with `find`; anything else is
passed to `df.loc[...]`, modelled for a list of class labels, which fails
when a label is missing from the index. -/
def grStart (R : Regex) (df : Frame) (a : Arg) : Except Err Frame :=
  match a with
  | Arg.s c => find R df c
  | Arg.l cs =>
    if cs.all (fun c => df.rows.any (fun r => idxVal r 0 == c)) then
      .ok { df with rows := df.rows.filter (fun r => cs.contains (idxVal r 0)) }
    else .error (.keyError "class label not in index")

/-- `drop_duplicates()`: remove the rows whose cell values equal those of an
earlier row, keeping first occurrences (pandas compares column values, not
the index). -/
def dropDupAux : List (List String) → List Row → List Row
  | _, [] => []
  | seen, r :: rs =>
    if seen.contains r.cells then dropDupAux seen rs
    else r :: dropDupAux (r.cells :: seen) rs

/-- The result combiner of `match` (source lines 203-209): no collected frame
yields `df.head(0)`, one is returned as is, several are concatenated with
duplicate rows removed. -/
def combineFrames (df : Frame) (frames : List Frame) : Frame :=
  match frames with
  | [] => { df with rows := [] }
  | [f] => f
  | f :: fs => { f with rows := dropDupAux [] (f.rows ++ (fs.map Frame.rows).flatten) }

/-- The profile resolver `match` (source lines 111-211). -/
def «match» (R : Regex) (df : Frame) (selection : List Arg) : Except Err Frame :=
  match df.fieldPrefix with
  | some pre =>
    if strTake pre 2 == "DS" then
      match selection with
      | [a] => do
        let frames ← (listMe a).foldlM
          (fun acc sel => do
            let fs ← dsMatchOne R df pre sel
            Except.ok (acc ++ fs)) []
        Except.ok (combineFrames df frames)
      | _ => .error (.invalidArguments "match keyword requires one parameter containing the data set name")
    else if strTake pre 2 == "GR" then do
      let p ←
        match selection with
        | [a] => Except.ok (Except.ok df, a)
        | [a, b] => Except.ok (grStart R df a, b)
        | _ => .error (.invalidArguments "match keyword requires an optional resclass and a parameter containing the resource name")
      let start ← p.1
      if start.rows.isEmpty then Except.ok (combineFrames df [])
      else do
        let frames ← (listMe p.2).foldlM
          (fun acc sel => do
            let f ← grMatchOne R start pre sel
            Except.ok (acc ++ [f])) []
        Except.ok (combineFrames df frames)
    else .error .unsupportedMatch
  | Option.none => .error .unsupportedMatch

/-- The running state of `_frameFilter`: the (possibly narrowed) frame `cur`
and the accumulator Series `locs` of exclude mode, aligned with the rows of
the original frame.  In exclude mode the frame is never narrowed, so `cur`
stays the input frame. -/
structure FState where
  cur : Frame
  locs : List Bool
deriving Repr

/-- Apply one row mask to the state: exclude mode conjoins it into `locs`
(`locs &= result`), select mode narrows the frame (`df = df.loc[result]`). -/
def applyMask (exclude : Bool) (st : FState) (m : Row → Bool) : FState :=
  if exclude then
    { st with locs := st.locs.zipWith (fun b r => b && m r) st.cur.rows }
  else
    { st with cur := { st.cur with rows := st.cur.rows.filter m } }

/-- One index-level positional criterion (source lines 36-51). -/
def idxStep (R : Regex) (rp exclude : Bool) (st : FState) (p : Nat × SelVal) :
    Except Err FState :=
  if skipSel rp p.2 then .ok st
  else do
    let m ← idxMask R rp p.1 p.2
    .ok (applyMask exclude st m)

/-- The index-criteria loop. -/
def idxFold (R : Regex) (rp exclude : Bool) (crits : List (Nat × SelVal))
    (st : FState) : Except Err FState :=
  crits.foldlM (idxStep R rp exclude) st

/-- The positional loop of the column mode (source lines 53-57): pair each
non-skipped value with the column at its ordinal, failing like
`df.columns[s]` when the ordinal is out of range. -/
def posResolve (cols : List String) (rp : Bool) :
    List (Nat × SelVal) → Except Err (List (String × SelVal))
  | [] => .ok []
  | p :: rest =>
    if skipSel rp p.2 then posResolve cols rp rest
    else
      match cols[p.1]? with
      | some c => do
        let cs ← posResolve cols rp rest
        .ok ((c, p.2) :: cs)
      | Option.none => .error .indexError

/-- Conversion of a keyword value handed to the `match` keyword into a
resolver argument; other value kinds fail inside the resolver as they do in
Python. -/
def selToArg : SelVal → Except Err Arg
  | SelVal.str s => .ok (Arg.s s)
  | SelVal.list l => .ok (Arg.l l)
  | _ => .error (.typeError "match argument must be a name or list of names")

/-- One keyword criterion (source lines 59-78): the literal keyword `match`
runs the resolver at once — narrowing the frame in select mode, conjoining an
index-membership mask in exclude mode — while every other keyword is resolved
to a column and queued on `columnSelect`. -/
def kwdStep (R : Regex) (exclude : Bool) (kwdValues : List (String × String))
    (acc : FState × List (String × SelVal)) (p : String × SelVal) :
    Except Err (FState × List (String × SelVal)) :=
  let st := acc.1
  if p.1 == "match" then
    match st.cur.fieldPrefix with
    | some pre =>
      if strTake pre 2 == "DS" || strTake pre 2 == "GR" then do
        let arg ← selToArg p.2
        let mres ← «match» R st.cur [arg]
        if exclude then
          let isinMask : Row → Bool := fun r => mres.rows.any (fun r2 => r2.idx == r.idx)
          .ok ({ st with locs := st.locs.zipWith (fun b r => b && isinMask r) st.cur.rows }, acc.2)
        else
          .ok ({ st with cur := mres }, acc.2)
      else .error .unsupportedMatch
    | Option.none => .error .unsupportedMatch
  else do
    let c ← resolveKwd kwdValues st.cur.columns st.cur.fieldPrefix p.1 p.2
    .ok (st, acc.2 ++ [c])

/-- One queued column criterion (source lines 80-105). -/
def colStep (R : Regex) (rp exclude : Bool) (st : FState) (p : String × SelVal) :
    Except Err FState := do
  let m ← colMask R rp st.cur.columns p.1 p.2
  .ok (applyMask exclude st m)

/-- The criterion filter engine `_frameFilter` (source lines 10-109).
`selection` are the positional criteria, `kwds` the keyword criteria in
order, `kwdValues` the alias table.  Select mode narrows the frame criterion
by criterion; exclude mode conjoins every row mask over the original frame
into `locs` and returns the rows where the conjunction is false. -/
def _frameFilter (R : Regex) (df : Frame) (selection : List SelVal)
    (kwdValues : List (String × String)) (useIndex exclude regexPattern : Bool)
    (kwds : List (String × SelVal)) : Except Err Frame := do
  let st0 : FState := { cur := df, locs := df.rows.map fun _ => true }
  let p1 ←
    if useIndex then do
      let st ← idxFold R regexPattern exclude selection.enum st0
      Except.ok (st, ([] : List (String × SelVal)))
    else do
      let cs ← posResolve df.columns regexPattern selection.enum
      Except.ok (st0, cs)
  let p2 ← kwds.foldlM (kwdStep R exclude kwdValues) p1
  let st3 ← p2.2.foldlM (colStep R regexPattern exclude) p2.1
  if exclude then
    Except.ok { df with rows := ((df.rows.zip st3.locs).filter (fun q => !q.2)).map (fun q => q.1) }
  else Except.ok st3.cur

/-- The list of index-criteria row masks, each taken against the original
frame. -/
def collectIdxMasks (R : Regex) (rp : Bool) :
    List (Nat × SelVal) → Except Err (List (Row → Bool))
  | [] => .ok []
  | p :: rest =>
    if skipSel rp p.2 then collectIdxMasks R rp rest
    else do
      let m ← idxMask R rp p.1 p.2
      let ms ← collectIdxMasks R rp rest
      .ok (m :: ms)

/-- Resolution of a whole keyword list to column-bound criteria, in order. -/
def resolveKwds (kwdValues : List (String × String)) (cols : List String)
    (pre : Option String) : List (String × SelVal) → Except Err (List (String × SelVal))
  | [] => .ok []
  | p :: rest => do
    let c ← resolveKwd kwdValues cols pre p.1 p.2
    let cs ← resolveKwds kwdValues cols pre rest
    .ok (c :: cs)

/-- The list of column-criteria row masks, each taken against the original
frame. -/
def collectColMasks (R : Regex) (rp : Bool) (cols : List String) :
    List (String × SelVal) → Except Err (List (Row → Bool))
  | [] => .ok []
  | p :: rest => do
    let m ← colMask R rp cols p.1 p.2
    let ms ← collectColMasks R rp cols rest
    .ok (m :: ms)

/-- All row masks of a criteria set, each computed against the original,
unnarrowed frame, in the order the engine meets them. -/
def collectMasks (R : Regex) (df : Frame) (selection : List SelVal)
    (kwdValues : List (String × String)) (useIndex rp : Bool)
    (kwds : List (String × SelVal)) : Except Err (List (Row → Bool)) := do
  let im ← if useIndex then collectIdxMasks R rp selection.enum else Except.ok []
  let pcs ← if useIndex then Except.ok [] else posResolve df.columns rp selection.enum
  let kcs ← resolveKwds kwdValues df.columns df.fieldPrefix kwds
  let cm ← collectColMasks R rp df.columns (pcs ++ kcs)
  Except.ok (im ++ cm)

/-- The specification's reading of select mode: compute every criterion's
row mask against the original, unnarrowed table and keep exactly the rows on
which all masks are true. -/
def fullTableConjSelect (R : Regex) (df : Frame) (selection : List SelVal)
    (kwdValues : List (String × String)) (useIndex rp : Bool)
    (kwds : List (String × SelVal)) : Except Err Frame := do
  let ms ← collectMasks R df selection kwdValues useIndex rp kwds
  Except.ok { df with rows := df.rows.filter (fun r => ms.all (fun m => m r)) }

/-- A concrete instantiation of the external pattern collaborators for
witnesses: the translator is the identity, the anchored matcher understands a
literal pattern and a trailing-`*` generic, the searcher is a plain substring
test — enough to exercise the engine on RACF-style profile names. -/
def simpleRegex : Regex where
  g2r := id
  rmatch := fun p s => if strBack p == '*' then strStarts (strDropRight p 1) s else p == s
  rsearch := fun p s => strContains s p

/-- A dataset profile frame holding a generic profile ahead of an exact one,
both governing SYS1.PROCLIB. -/
def dsFrame : Frame where
  columns := ["DSBD_NAME"]
  fieldPrefix := some "DSBD_"
  indexNames := ["DSBD_NAME"]
  rows := [⟨["SYS1.*"], ["SYS1.*"]⟩, ⟨["SYS1.PROCLIB"], ["SYS1.PROCLIB"]⟩]

/-- A general-resource frame whose FACILITY rows are interleaved with an
XFACILIT row, so the class FACILITY appears in two separate runs. -/
def grFrame : Frame where
  columns := ["GRBD_NAME"]
  fieldPrefix := some "GRBD_"
  indexNames := ["GRBD_CLASS_NAME", "GRBD_NAME"]
  rows := [⟨["FACILITY", "BPX.*"], ["BPX.*"]⟩, ⟨["XFACILIT", "BPX.*"], ["BPX.*"]⟩,
           ⟨["FACILITY", "BPX.SUPERUSER"], ["BPX.SUPERUSER"]⟩]

/-- A one-row frame whose single index value is not the literal `*`. -/
def starFrame : Frame where
  columns := ["COL"]
  fieldPrefix := Option.none
  indexNames := ["NAME"]
  rows := [⟨["ABC"], ["v"]⟩]

/-- A dataset profile frame whose single profile name contains the qualifier
`SYS1.` in the middle, not as its prefix. -/
def midQualFrame : Frame where
  columns := ["DSBD_NAME"]
  fieldPrefix := some "DSBD_"
  indexNames := ["DSBD_NAME"]
  rows := [⟨["A.SYS1.X"], ["A.SYS1.X"]⟩]

/-- A dataset permission frame (multi-level index) whose only profile shares
the SYS1 qualifier with, but does not match, the queried name. -/
def dsaccFrame : Frame where
  columns := ["DSACC_NAME"]
  fieldPrefix := some "DSACC_"
  indexNames := ["DSACC_NAME", "USER_ID"]
  rows := [⟨["SYS1.PARMLIB", "IBMUSER"], ["SYS1.PARMLIB"]⟩]

/-- Decidable equality of results, for evaluating the engine on concrete
inputs. -/
instance {e a : Type} [DecidableEq e] [DecidableEq a] : DecidableEq (Except e a) := fun x y =>
  match x, y with
  | Except.ok u, Except.ok v =>
    if h : u = v then Decidable.isTrue (congrArg Except.ok h)
    else Decidable.isFalse (fun hc => h (Except.ok.inj hc))
  | Except.error u, Except.error v =>
    if h : u = v then Decidable.isTrue (congrArg Except.error h)
    else Decidable.isFalse (fun hc => h (Except.error.inj hc))
  | Except.ok _, Except.error _ => Decidable.isFalse (fun hc => Except.noConfusion hc)
  | Except.error _, Except.ok _ => Decidable.isFalse (fun hc => Except.noConfusion hc)

/-- The dataset frame with no rows, the shape of empty filter results on
`dsFrame`. -/
def dsFrameEmpty : Frame where
  columns := ["DSBD_NAME"]
  fieldPrefix := some "DSBD_"
  indexNames := ["DSBD_NAME"]
  rows := []

/-- A general-resource frame with a sorted index: each class's rows are
contiguous.  FACILITY holds a generic profile ahead of an exact one, both
matching BPX.SUPERUSER. -/
def grSortedFrame : Frame where
  columns := ["GRBD_NAME"]
  fieldPrefix := some "GRBD_"
  indexNames := ["GRBD_CLASS_NAME", "GRBD_NAME"]
  rows := [⟨["FACILITY", "BPX.*"], ["BPX.*"]⟩,
           ⟨["FACILITY", "BPX.SUPERUSER"], ["BPX.SUPERUSER"]⟩,
           ⟨["XFACILIT", "BPX.*"], ["BPX.*"]⟩]

/-- The rows `match` keeps on `grSortedFrame` for BPX.SUPERUSER: the first
matching profile of each class. -/
def grSortedResult : Frame where
  columns := ["GRBD_NAME"]
  fieldPrefix := some "GRBD_"
  indexNames := ["GRBD_CLASS_NAME", "GRBD_NAME"]
  rows := [⟨["FACILITY", "BPX.*"], ["BPX.*"]⟩, ⟨["XFACILIT", "BPX.*"], ["BPX.*"]⟩]

/-- The list of contiguous run labels of a class sequence: consecutive
duplicates collapsed.  `(runs l).Nodup` states that no class label occupies
two separate runs, i.e. each class's rows are contiguous. -/
def runs : List String → List String
  | [] => []
  | [c] => [c]
  | c :: c2 :: cs => if c == c2 then runs (c2 :: cs) else c :: runs (c2 :: cs)

/-! Helper lemmas on the Boolean mask algebra of the engine. -/

theorem zipWith_fst : ∀ (l : List Bool) (r : List Row), l.length ≤ r.length →
    List.zipWith (fun b (_ : Row) => b) l r = l
  | [], _, _ => rfl
  | _ :: _, [], h => by simp at h
  | b :: l, x :: r, h => by
    rw [List.zipWith_cons_cons, zipWith_fst l r (Nat.le_of_succ_le_succ h)]

theorem zipWith_and_comp (m g : Row → Bool) : ∀ (l : List Bool) (r : List Row),
    List.zipWith (fun b x => b && g x) (List.zipWith (fun b x => b && m x) l r) r =
      List.zipWith (fun b x => b && (m x && g x)) l r
  | [], _ => rfl
  | _ :: _, [] => rfl
  | b :: l, x :: r => by
    simp only [List.zipWith, Bool.and_assoc]
    exact congrArg _ (zipWith_and_comp m g l r)

theorem zipWith_map_self (f g : Row → Bool) : ∀ rows : List Row,
    List.zipWith (fun b x => b && g x) (rows.map f) rows = rows.map (fun r => f r && g r)
  | [] => rfl
  | x :: rows => by
    simp only [List.map, List.zipWith]
    exact congrArg _ (zipWith_map_self f g rows)

theorem zip_filter_not_map (p : Row → Bool) : ∀ rows : List Row,
    ((rows.zip (rows.map p)).filter (fun q => !q.2)).map (fun q => q.1) =
      rows.filter (fun r => !p r)
  | [] => rfl
  | x :: rows => by
    show (((x, p x) :: rows.zip (rows.map p)).filter (fun q => !q.2)).map (fun q => q.1) = _
    cases hp : p x
    · rw [List.filter_cons_of_pos (by simp [hp]), List.map_cons,
        List.filter_cons_of_pos (by simp [hp])]
      exact congrArg _ (zip_filter_not_map p rows)
    · rw [List.filter_cons_of_neg (by simp [hp]), List.filter_cons_of_neg (by simp [hp])]
      exact zip_filter_not_map p rows

theorem filter_and_comm (a b : Row → Bool) (l : List Row) :
    l.filter (fun r => a r && b r) = l.filter (fun r => b r && a r) :=
  List.filter_congr (fun r _ => by rw [Bool.and_comm])

theorem except_map_ok {α β : Type} (g : α → β) (a : α) :
    (Except.ok a : Except Err α).map g = .ok (g a) := rfl

theorem except_map_error {α β : Type} (g : α → β) (e : Err) :
    (Except.error e : Except Err α).map g = .error e := rfl

theorem idxStep_skip (R : Regex) (rp ex : Bool) (st : FState) (p : Nat × SelVal)
    (h : skipSel rp p.2 = true) : idxStep R rp ex st p = .ok st := by
  simp [idxStep, h]

theorem idxStep_mask (R : Regex) (rp ex : Bool) (st : FState) (p : Nat × SelVal)
    (m : Row → Bool) (h : skipSel rp p.2 = false) (hm : idxMask R rp p.1 p.2 = .ok m) :
    idxStep R rp ex st p = .ok (applyMask ex st m) := by
  rw [idxStep, if_neg (by simp [h]), hm]
  rfl

theorem idxStep_err (R : Regex) (rp ex : Bool) (st : FState) (p : Nat × SelVal)
    (e : Err) (h : skipSel rp p.2 = false) (hm : idxMask R rp p.1 p.2 = .error e) :
    idxStep R rp ex st p = .error e := by
  rw [idxStep, if_neg (by simp [h]), hm]
  rfl

theorem idxFold_select (R : Regex) (rp : Bool) :
    ∀ (crits : List (Nat × SelVal)) (f : Frame) (locs : List Bool),
    idxFold R rp false crits ⟨f, locs⟩ =
      (collectIdxMasks R rp crits).map
        (fun ms => ⟨{ f with rows := f.rows.filter (fun r => ms.all (fun m => m r)) }, locs⟩)
  | [], f, locs => by
    simp only [idxFold, List.foldlM_nil, collectIdxMasks, except_map_ok,
      List.all_nil, List.filter_true]
    rfl
  | p :: rest, f, locs => by
    show List.foldlM _ _ _ = _
    rw [List.foldlM_cons]
    cases hskip : skipSel rp p.2
    · rw [collectIdxMasks, if_neg (by simp [hskip])]
      cases hm : idxMask R rp p.1 p.2 with
      | error e => rw [idxStep_err R rp false ⟨f, locs⟩ p e hskip hm]; rfl
      | ok m =>
        rw [idxStep_mask R rp false ⟨f, locs⟩ p m hskip hm]
        show idxFold R rp false rest ⟨{ f with rows := f.rows.filter m }, locs⟩ = _
        rw [idxFold_select R rp rest { f with rows := f.rows.filter m } locs]
        cases hrest : collectIdxMasks R rp rest with
        | error e => rfl
        | ok ms =>
          show Except.ok _ = Except.ok _
          have hcomm : (f.rows.filter m).filter (fun r => ms.all (fun g => g r)) =
              f.rows.filter (fun r => (m :: ms).all (fun g => g r)) := by
            rw [List.filter_filter]
            exact List.filter_congr (fun r _ => by rw [List.all_cons, Bool.and_comm])
          simp only [except_map_ok]
          rw [hcomm]
    · rw [idxStep_skip R rp false ⟨f, locs⟩ p hskip, collectIdxMasks, if_pos hskip]
      exact idxFold_select R rp rest f locs

theorem idxFold_exclude (R : Regex) (rp : Bool) :
    ∀ (crits : List (Nat × SelVal)) (f : Frame) (locs : List Bool),
    locs.length ≤ f.rows.length →
    idxFold R rp true crits ⟨f, locs⟩ =
      (collectIdxMasks R rp crits).map
        (fun ms => ⟨f, locs.zipWith (fun b r => b && ms.all (fun m => m r)) f.rows⟩)
  | [], f, locs, hl => by
    simp only [idxFold, List.foldlM_nil, collectIdxMasks, except_map_ok,
      List.all_nil, Bool.and_true]
    rw [zipWith_fst locs f.rows hl]
    rfl
  | p :: rest, f, locs, hl => by
    show List.foldlM _ _ _ = _
    rw [List.foldlM_cons]
    cases hskip : skipSel rp p.2
    · rw [collectIdxMasks, if_neg (by simp [hskip])]
      cases hm : idxMask R rp p.1 p.2 with
      | error e => rw [idxStep_err R rp true ⟨f, locs⟩ p e hskip hm]; rfl
      | ok m =>
        rw [idxStep_mask R rp true ⟨f, locs⟩ p m hskip hm]
        show idxFold R rp true rest ⟨f, locs.zipWith (fun b r => b && m r) f.rows⟩ = _
        have hl2 : (locs.zipWith (fun b r => b && m r) f.rows).length ≤ f.rows.length := by
          rw [List.length_zipWith]
          exact min_le_right _ _
        rw [idxFold_exclude R rp rest f _ hl2]
        cases hrest : collectIdxMasks R rp rest with
        | error e => rfl
        | ok ms =>
          show Except.ok _ = Except.ok _
          simp only [except_map_ok]
          rw [zipWith_and_comp m (fun r => ms.all (fun g => g r)) locs f.rows]
          simp only [List.all_cons]
    · rw [idxStep_skip R rp true ⟨f, locs⟩ p hskip, collectIdxMasks, if_pos hskip]
      exact idxFold_exclude R rp rest f locs hl

theorem except_bind_ok {α β : Type} (g : α → Except Err β) (a : α) :
    (Except.ok a : Except Err α) >>= g = g a := rfl

theorem except_bind_error {α β : Type} (g : α → Except Err β) (e : Err) :
    (Except.error e : Except Err α) >>= g = .error e := rfl

theorem colStep_mask (R : Regex) (rp ex : Bool) (st : FState) (p : String × SelVal)
    (m : Row → Bool) (hm : colMask R rp st.cur.columns p.1 p.2 = .ok m) :
    colStep R rp ex st p = .ok (applyMask ex st m) := by
  rw [colStep, hm]
  rfl

theorem colStep_err (R : Regex) (rp ex : Bool) (st : FState) (p : String × SelVal)
    (e : Err) (hm : colMask R rp st.cur.columns p.1 p.2 = .error e) :
    colStep R rp ex st p = .error e := by
  rw [colStep, hm]
  rfl

theorem colFold_select (R : Regex) (rp : Bool) :
    ∀ (cs : List (String × SelVal)) (f : Frame) (locs : List Bool),
    List.foldlM (colStep R rp false) ⟨f, locs⟩ cs =
      (collectColMasks R rp f.columns cs).map
        (fun ms => ⟨{ f with rows := f.rows.filter (fun r => ms.all (fun m => m r)) }, locs⟩)
  | [], f, locs => by
    simp only [List.foldlM_nil, collectColMasks, except_map_ok, List.all_nil, List.filter_true]
    rfl
  | p :: rest, f, locs => by
    rw [List.foldlM_cons, collectColMasks]
    cases hm : colMask R rp f.columns p.1 p.2 with
    | error e => rw [colStep_err R rp false ⟨f, locs⟩ p e hm]; rfl
    | ok m =>
      rw [colStep_mask R rp false ⟨f, locs⟩ p m hm]
      show List.foldlM _ (⟨{ f with rows := f.rows.filter m }, locs⟩ : FState) rest = _
      rw [colFold_select R rp rest { f with rows := f.rows.filter m } locs]
      cases hrest : collectColMasks R rp f.columns rest with
      | error e => rfl
      | ok ms =>
        show Except.ok _ = Except.ok _
        have hcomm : (f.rows.filter m).filter (fun r => ms.all (fun g => g r)) =
            f.rows.filter (fun r => (m :: ms).all (fun g => g r)) := by
          rw [List.filter_filter]
          exact List.filter_congr (fun r _ => by rw [List.all_cons, Bool.and_comm])
        simp only [except_map_ok]
        rw [hcomm]

theorem colFold_exclude (R : Regex) (rp : Bool) :
    ∀ (cs : List (String × SelVal)) (f : Frame) (locs : List Bool),
    locs.length ≤ f.rows.length →
    List.foldlM (colStep R rp true) ⟨f, locs⟩ cs =
      (collectColMasks R rp f.columns cs).map
        (fun ms => ⟨f, locs.zipWith (fun b r => b && ms.all (fun m => m r)) f.rows⟩)
  | [], f, locs, hl => by
    simp only [List.foldlM_nil, collectColMasks, except_map_ok, List.all_nil, Bool.and_true]
    rw [zipWith_fst locs f.rows hl]
    rfl
  | p :: rest, f, locs, hl => by
    rw [List.foldlM_cons, collectColMasks]
    cases hm : colMask R rp f.columns p.1 p.2 with
    | error e => rw [colStep_err R rp true ⟨f, locs⟩ p e hm]; rfl
    | ok m =>
      rw [colStep_mask R rp true ⟨f, locs⟩ p m hm]
      show List.foldlM _ (⟨f, locs.zipWith (fun b r => b && m r) f.rows⟩ : FState) rest = _
      have hl2 : (locs.zipWith (fun b r => b && m r) f.rows).length ≤ f.rows.length := by
        rw [List.length_zipWith]
        exact min_le_right _ _
      rw [colFold_exclude R rp rest f _ hl2]
      cases hrest : collectColMasks R rp f.columns rest with
      | error e => rfl
      | ok ms =>
        show Except.ok _ = Except.ok _
        simp only [except_map_ok]
        rw [zipWith_and_comp m (fun r => ms.all (fun g => g r)) locs f.rows]
        simp only [List.all_cons]

theorem kwdStep_nomatch (R : Regex) (ex : Bool) (kV : List (String × String))
    (st : FState) (cs : List (String × SelVal)) (p : String × SelVal)
    (h : p.1 ≠ "match") :
    kwdStep R ex kV (st, cs) p =
      (resolveKwd kV st.cur.columns st.cur.fieldPrefix p.1 p.2).map
        (fun c => (st, cs ++ [c])) := by
  rw [kwdStep, if_neg (by simp [h])]
  cases resolveKwd kV st.cur.columns st.cur.fieldPrefix p.1 p.2 <;> rfl

theorem kwdFold_nomatch (R : Regex) (ex : Bool) (kV : List (String × String)) :
    ∀ (kwds : List (String × SelVal)) (st : FState) (cs : List (String × SelVal)),
    (∀ p ∈ kwds, p.1 ≠ "match") →
    List.foldlM (kwdStep R ex kV) (st, cs) kwds =
      (resolveKwds kV st.cur.columns st.cur.fieldPrefix kwds).map (fun ks => (st, cs ++ ks))
  | [], st, cs, _ => by
    simp only [List.foldlM_nil, resolveKwds, except_map_ok, List.append_nil]
    rfl
  | p :: rest, st, cs, h => by
    rw [List.foldlM_cons, kwdStep_nomatch R ex kV st cs p (h p (List.mem_cons_self p rest)),
      resolveKwds]
    cases hc : resolveKwd kV st.cur.columns st.cur.fieldPrefix p.1 p.2 with
    | error e => rfl
    | ok c =>
      show List.foldlM _ (st, cs ++ [c]) rest = _
      rw [kwdFold_nomatch R ex kV rest st (cs ++ [c])
        (fun q hq => h q (List.mem_cons_of_mem p hq))]
      cases hrest : resolveKwds kV st.cur.columns st.cur.fieldPrefix rest with
      | error e => rfl
      | ok ks =>
        simp only [except_map_ok, List.append_assoc, List.singleton_append]
        rfl

theorem filter_all_append (im cm : List (Row → Bool)) (rows : List Row) :
    (rows.filter (fun r => im.all (fun m => m r))).filter (fun r => cm.all (fun m => m r)) =
      rows.filter (fun r => (im ++ cm).all (fun m => m r)) := by
  rw [List.filter_filter]
  exact List.filter_congr (fun r _ => by rw [List.all_append, Bool.and_comm])

theorem locs0_len (df : Frame) : (df.rows.map fun _ => true).length ≤ df.rows.length := by
  rw [List.length_map]

theorem frameFilter_select_masks (R : Regex) (df : Frame) (selection : List SelVal)
    (kV : List (String × String)) (ui rp : Bool) (kwds : List (String × SelVal))
    (hnm : ∀ p ∈ kwds, p.1 ≠ "match") :
    _frameFilter R df selection kV ui false rp kwds =
      (collectMasks R df selection kV ui rp kwds).map
        (fun ms => { df with rows := df.rows.filter (fun r => ms.all (fun m => m r)) }) := by
  cases ui
  case true =>
    simp only [_frameFilter, collectMasks, reduceIte]
    rw [idxFold_select R rp selection.enum df (df.rows.map fun _ => true)]
    cases hidx : collectIdxMasks R rp selection.enum with
    | error e => rfl
    | ok im =>
      simp only [except_map_ok, except_bind_ok]
      rw [kwdFold_nomatch R false kV kwds
        ⟨{ df with rows := df.rows.filter (fun r => im.all (fun m => m r)) },
          df.rows.map fun _ => true⟩ [] hnm]
      dsimp only
      cases hres : resolveKwds kV df.columns df.fieldPrefix kwds with
      | error e => rfl
      | ok ks =>
        simp only [except_map_ok, except_bind_ok, List.nil_append]
        rw [colFold_select R rp ks
          { df with rows := df.rows.filter (fun r => im.all (fun m => m r)) }
          (df.rows.map fun _ => true)]
        dsimp only
        cases hcm : collectColMasks R rp df.columns ks with
        | error e => rfl
        | ok cm =>
          simp only [except_map_ok, except_bind_ok]
          rw [filter_all_append im cm df.rows]
          rfl
  case false =>
    simp only [_frameFilter, collectMasks, reduceIte]
    cases hpos : posResolve df.columns rp selection.enum with
    | error e => rfl
    | ok cs =>
      simp only [except_map_ok, except_bind_ok]
      rw [kwdFold_nomatch R false kV kwds ⟨df, df.rows.map fun _ => true⟩ cs hnm]
      try dsimp only
      cases hres : resolveKwds kV df.columns df.fieldPrefix kwds with
      | error e => rfl
      | ok ks =>
        simp only [except_map_ok, except_bind_ok]
        rw [colFold_select R rp (cs ++ ks) df (df.rows.map fun _ => true)]
        try dsimp only
        cases hcm : collectColMasks R rp df.columns (cs ++ ks) with
        | error e => rfl
        | ok cm =>
          rfl

theorem frameFilter_exclude_masks (R : Regex) (df : Frame) (selection : List SelVal)
    (kV : List (String × String)) (ui rp : Bool) (kwds : List (String × SelVal))
    (hnm : ∀ p ∈ kwds, p.1 ≠ "match") :
    _frameFilter R df selection kV ui true rp kwds =
      (collectMasks R df selection kV ui rp kwds).map
        (fun ms => { df with rows := df.rows.filter (fun r => !(ms.all (fun m => m r))) }) := by
  cases ui
  case true =>
    simp only [_frameFilter, collectMasks, reduceIte]
    rw [idxFold_exclude R rp selection.enum df (df.rows.map fun _ => true) (locs0_len df)]
    cases hidx : collectIdxMasks R rp selection.enum with
    | error e => rfl
    | ok im =>
      simp only [except_map_ok, except_bind_ok]
      rw [kwdFold_nomatch R true kV kwds
        ⟨df, (df.rows.map fun _ => true).zipWith
          (fun b r => b && im.all (fun m => m r)) df.rows⟩ [] hnm]
      try dsimp only
      cases hres : resolveKwds kV df.columns df.fieldPrefix kwds with
      | error e => rfl
      | ok ks =>
        simp only [except_map_ok, except_bind_ok, List.nil_append]
        rw [colFold_exclude R rp ks df
          ((df.rows.map fun _ => true).zipWith (fun b r => b && im.all (fun m => m r)) df.rows)
          (by rw [List.length_zipWith]; exact min_le_right _ _)]
        try dsimp only
        cases hcm : collectColMasks R rp df.columns ks with
        | error e => rfl
        | ok cm =>
          simp only [except_map_ok, except_bind_ok]
          rw [zipWith_and_comp (fun r => im.all (fun m => m r)) (fun r => cm.all (fun m => m r))
            (df.rows.map fun _ => true) df.rows]
          rw [zipWith_map_self (fun _ => true)
            (fun r => im.all (fun m => m r) && cm.all (fun m => m r)) df.rows]
          simp only [Bool.true_and]
          rw [zip_filter_not_map
            (fun r => im.all (fun m => m r) && cm.all (fun m => m r)) df.rows]
          simp only [List.all_append]
  case false =>
    simp only [_frameFilter, collectMasks, reduceIte]
    cases hpos : posResolve df.columns rp selection.enum with
    | error e => rfl
    | ok cs =>
      simp only [except_map_ok, except_bind_ok]
      rw [kwdFold_nomatch R true kV kwds ⟨df, df.rows.map fun _ => true⟩ cs hnm]
      try dsimp only
      cases hres : resolveKwds kV df.columns df.fieldPrefix kwds with
      | error e => rfl
      | ok ks =>
        simp only [except_map_ok, except_bind_ok]
        rw [colFold_exclude R rp (cs ++ ks) df (df.rows.map fun _ => true) (locs0_len df)]
        try dsimp only
        cases hcm : collectColMasks R rp df.columns (cs ++ ks) with
        | error e => rfl
        | ok cm =>
          simp only [except_map_ok, except_bind_ok]
          rw [zipWith_map_self (fun _ => true) (fun r => cm.all (fun m => m r)) df.rows]
          simp only [Bool.true_and]
          rw [zip_filter_not_map (fun r => cm.all (fun m => m r)) df.rows]
          rfl

theorem infixOfAux_iff (sub : List Char) : ∀ l : List Char,
    infixOfAux sub l = true ↔ sub <:+: l
  | [] => by
    simp only [infixOfAux, List.isEmpty_iff, List.infix_nil]
  | c :: cs => by
    simp only [infixOfAux, Bool.or_eq_true, List.isPrefixOf_iff_prefix,
      infixOfAux_iff sub cs, List.infix_cons_iff]

theorem strContains_iff (s sub : String) :
    strContains s sub = true ↔ sub.toList <:+: s.toList :=
  infixOfAux_iff sub.toList s.toList

/-- C2: in select mode, applying each criterion's row mask immediately — so
later criteria see the already-narrowed table — returns exactly what
computing every mask against the original table and keeping the rows on
which all masks are true returns, including agreement on errors.  The
`match` keyword is excluded because it is not a row mask (it is the one
criterion resolved by the profile resolver instead). -/
theorem c2_interleaving_equals_full_conjunction (R : Regex) (df : Frame)
    (selection : List SelVal) (kV : List (String × String)) (ui rp : Bool)
    (kwds : List (String × SelVal)) (hnm : ∀ p ∈ kwds, p.1 ≠ "match") :
    _frameFilter R df selection kV ui false rp kwds =
      fullTableConjSelect R df selection kV ui rp kwds := by
  rw [frameFilter_select_masks R df selection kV ui rp kwds hnm, fullTableConjSelect]
  cases collectMasks R df selection kV ui rp kwds <;> rfl

theorem c2_witness :
    (∀ p ∈ ([("NAME", SelVal.str "**")] : List (String × SelVal)), p.1 ≠ "match") ∧
    _frameFilter simpleRegex dsFrame [SelVal.str "SYS1.*"] [] true false false
        [("NAME", SelVal.str "**")] =
      fullTableConjSelect simpleRegex dsFrame [SelVal.str "SYS1.*"] [] true false
        [("NAME", SelVal.str "**")] :=
  ⟨by decide, c2_interleaving_equals_full_conjunction simpleRegex dsFrame
    [SelVal.str "SYS1.*"] [] true false [("NAME", SelVal.str "**")] (by decide)⟩

/-- C1 counterexample: when the criteria include the literal `match` keyword,
select and exclude mode are not complementary.  On a table holding the
generic `SYS1.*` ahead of the exact `SYS1.PROCLIB`, with an index criterion
selecting the exact name and `match='SYS1.PROCLIB'`, select mode returns the
exact profile while exclude mode returns the whole table: the exact profile
row lies in both results, so they are not disjoint. -/
theorem c1_match_keyword_not_complementary :
    _frameFilter simpleRegex dsFrame [SelVal.str "SYS1.PROCLIB"] [] true false false
        [("match", SelVal.str "SYS1.PROCLIB")] =
      .ok { dsFrame with rows := [⟨["SYS1.PROCLIB"], ["SYS1.PROCLIB"]⟩] } ∧
    _frameFilter simpleRegex dsFrame [SelVal.str "SYS1.PROCLIB"] [] true true false
        [("match", SelVal.str "SYS1.PROCLIB")] =
      .ok { dsFrame with rows := dsFrame.rows } ∧
    (⟨["SYS1.PROCLIB"], ["SYS1.PROCLIB"]⟩ : Row) ∈
      [(⟨["SYS1.PROCLIB"], ["SYS1.PROCLIB"]⟩ : Row)] ∧
    (⟨["SYS1.PROCLIB"], ["SYS1.PROCLIB"]⟩ : Row) ∈ dsFrame.rows :=
  ⟨rfl, rfl, by decide, by decide⟩

/-- C1 (amended): for criteria sets without the literal `match` keyword, the
rows returned in select mode and in exclude mode are disjoint and together
are exactly the rows of the input table. -/
theorem c1_select_exclude_partition (R : Regex) (df : Frame) (selection : List SelVal)
    (kV : List (String × String)) (ui rp : Bool) (kwds : List (String × SelVal))
    (S E : Frame) (hnm : ∀ p ∈ kwds, p.1 ≠ "match")
    (hS : _frameFilter R df selection kV ui false rp kwds = .ok S)
    (hE : _frameFilter R df selection kV ui true rp kwds = .ok E) :
    (∀ r : Row, ¬(r ∈ S.rows ∧ r ∈ E.rows)) ∧
    (∀ r : Row, r ∈ df.rows ↔ (r ∈ S.rows ∨ r ∈ E.rows)) := by
  rw [frameFilter_select_masks R df selection kV ui rp kwds hnm] at hS
  rw [frameFilter_exclude_masks R df selection kV ui rp kwds hnm] at hE
  cases hcm : collectMasks R df selection kV ui rp kwds with
  | error e =>
    rw [hcm] at hS
    exact absurd hS (by simp [except_map_error])
  | ok ms =>
    rw [hcm, except_map_ok] at hS hE
    injection hS with hS
    injection hE with hE
    have hSrows : S.rows = df.rows.filter (fun r => ms.all (fun m => m r)) := by
      rw [← hS]
    have hErows : E.rows = df.rows.filter (fun r => !(ms.all (fun m => m r))) := by
      rw [← hE]
    constructor
    · intro r hr
      rcases hr with ⟨h1, h2⟩
      rw [hSrows, List.mem_filter] at h1
      rw [hErows, List.mem_filter] at h2
      rw [h1.2] at h2
      exact absurd h2.2 (by simp)
    · intro r
      rw [hSrows, hErows]
      cases hP : ms.all (fun m => m r) <;>
        simp [List.mem_filter, hP]

theorem c1_witness :
    (∀ p ∈ ([] : List (String × SelVal)), p.1 ≠ "match") ∧
    (∀ r : Row, ¬(r ∈ dsFrame.rows ∧ r ∈ dsFrameEmpty.rows)) ∧
    (∀ r : Row, r ∈ dsFrame.rows ↔ (r ∈ dsFrame.rows ∨ r ∈ dsFrameEmpty.rows)) :=
  ⟨by decide, c1_select_exclude_partition simpleRegex dsFrame [SelVal.str "SYS1.*"]
    [] true false [] dsFrame dsFrameEmpty (by decide) (by decide) (by decide)⟩


/-- C4 counterexample: a bare `*` index criterion does not keep every row:
on a table whose only row has index value `ABC`, it keeps nothing. -/
theorem c4_star_drops_rows :
    _frameFilter simpleRegex starFrame [SelVal.str "*"] [] true false false [] =
      .ok { starFrame with rows := [] } ∧ starFrame.rows ≠ [] :=
  ⟨by decide, by decide⟩

/-- C4 (amended): a bare `*` supplied as an index-level positional criterion
is an equality test, not a skip: for every table and every pattern
collaborator it keeps exactly the rows whose level-0 index value is the
literal string `*`. -/
theorem c4_star_is_equality (R : Regex) (df : Frame) :
    _frameFilter R df [SelVal.str "*"] [] true false false [] =
      .ok { df with rows := df.rows.filter (fun r => idxVal r 0 == "*") } := rfl

/-- C5 counterexample: the qualifier narrowing step of `match` keeps a
profile whose name contains the qualifier `SYS1.` only in the middle — the
qualifier is not a prefix of the name, yet the row passes the narrowing. -/
theorem c5_contained_qualifier_kept :
    (filterLike midQualFrame "SYS1.").rows = midQualFrame.rows ∧
    strStarts "SYS1." "A.SYS1.X" = false :=
  ⟨by decide, by decide⟩

/-- C5 (amended): the qualifier narrowing of `match` (`filter(like=...)`) keeps
exactly the rows whose index-label string contains the leading qualifier as a
substring anywhere, not only as a prefix; prefix-matching rows are a subset
of those kept. -/
theorem c5_narrowing_is_containment (df : Frame) (q : String) (r : Row) :
    r ∈ (filterLike df q).rows ↔
      r ∈ df.rows ∧ q.toList <:+: (labelStr df.indexNames.length r).toList := by
  simp only [filterLike, List.mem_filter, strContains_iff]

/-- C7: a keyword criterion other than the literal `match` is resolved in
order — alias table first (winning even over an identical column name), then
exact column name, then schema-prefixed column name — and when none applies
the engine fails with the unknown-criterion error whose message enumerates
exactly the alias keys, a non-empty set whenever the alias table is
non-empty. -/
theorem c7_keyword_resolution_order (R : Regex) (df : Frame)
    (kV : List (String × String)) (ui ex rp : Bool) (kwd : String) (v : SelVal)
    (hkm : kwd ≠ "match") :
    (∀ col, kV.lookup kwd = some col →
      resolveKwd kV df.columns df.fieldPrefix kwd v = .ok (col, v)) ∧
    (kV.lookup kwd = Option.none → df.columns.contains kwd = true →
      resolveKwd kV df.columns df.fieldPrefix kwd v = .ok (kwd, v)) ∧
    (∀ p, kV.lookup kwd = Option.none → df.columns.contains kwd = false →
      df.fieldPrefix = some p → df.columns.contains (p ++ kwd) = true →
      resolveKwd kV df.columns df.fieldPrefix kwd v = .ok (p ++ kwd, v)) ∧
    (kV.lookup kwd = Option.none → df.columns.contains kwd = false →
      (∀ p, df.fieldPrefix = some p → df.columns.contains (p ++ kwd) = false) →
      _frameFilter R df [] kV ui ex rp [(kwd, v)] =
        .error (.unknownCriterion kwd (kV.map (fun q => q.1))) ∧
      (kV ≠ [] → kV.map (fun q => q.1) ≠ [])) := by
  refine ⟨?_, ?_, ?_, ?_⟩
  · intro col hl
    rw [resolveKwd.eq_def, hl]
  · intro hl hc
    rw [resolveKwd.eq_def, hl]
    simp only [hc, if_true]
  · intro p hl hc hpre hpc
    rw [resolveKwd.eq_def, hl, hpre]
    simp only [hc, hpc, Bool.false_eq_true, if_false, if_true]
  · intro hl hc hpre
    have herr : resolveKwd kV df.columns df.fieldPrefix kwd v =
        .error (.unknownCriterion kwd (kV.map (fun q => q.1))) := by
      rw [resolveKwd.eq_def, hl]
      simp only [hc, Bool.false_eq_true, if_false]
      cases hp : df.fieldPrefix with
      | none => rfl
      | some p => simp only [hpre p hp, Bool.false_eq_true, if_false]
    have hres : resolveKwds kV df.columns df.fieldPrefix [(kwd, v)] =
        .error (.unknownCriterion kwd (kV.map (fun q => q.1))) := by
      rw [resolveKwds, herr]
      rfl
    constructor
    · cases ex
      case true =>
        rw [frameFilter_exclude_masks R df [] kV ui rp [(kwd, v)]
          (by intro p hp; rw [List.mem_singleton] at hp; rw [hp]; exact hkm)]
        rw [collectMasks]
        cases ui
        case true =>
          simp only [collectIdxMasks, hres, reduceIte]
          rfl
        case false =>
          simp only [posResolve, hres, reduceIte]
          rfl
      case false =>
        rw [frameFilter_select_masks R df [] kV ui rp [(kwd, v)]
          (by intro p hp; rw [List.mem_singleton] at hp; rw [hp]; exact hkm)]
        rw [collectMasks]
        cases ui
        case true =>
          simp only [collectIdxMasks, hres, reduceIte]
          rfl
        case false =>
          simp only [posResolve, hres, reduceIte]
          rfl
    · intro hne
      cases kV with
      | nil => exact absurd rfl hne
      | cons a as => simp

theorem c7_witness :
    ("BOGUS" : String) ≠ "match" ∧
    _frameFilter simpleRegex dsFrame [] [("user", "DSBD_NAME")] false false false
        [("BOGUS", SelVal.str "X")] =
      .error (.unknownCriterion "BOGUS" ["user"]) :=
  ⟨by decide,
    ((c7_keyword_resolution_order simpleRegex dsFrame [("user", "DSBD_NAME")]
      false false false "BOGUS" (SelVal.str "X") (by decide)).2.2.2
      (by decide) (by decide)
      (fun p hp => by
        have hp2 : p = "DSBD_" := by
          have : some "DSBD_" = some p := hp
          exact (Option.some.inj this).symm
        rw [hp2]
        decide)).1⟩

/-- C8: on a dataset-schema table, a queried name without a qualifier
separator fails with the invalid-name error naming the offender, and any
arity other than exactly one positional argument fails with the
invalid-arguments error before any name is examined. -/
theorem c8_ds_invalid_name_and_arity (R : Regex) (df : Frame) (p : String)
    (hpre : df.fieldPrefix = some p) (hds : strTake p 2 = "DS") :
    (∀ s : String, chContains s '.' = false →
      «match» R df [Arg.s s] = .error (.invalidName s)) ∧
    (∀ args : List Arg, args.length ≠ 1 →
      «match» R df args =
        .error (.invalidArguments
          "match keyword requires one parameter containing the data set name")) := by
  constructor
  · intro s hdot
    have hq : leadQual s = "" := by
      rw [leadQual, if_neg (by simp [hdot])]
    simp only [«match», hpre, hds, beq_self_eq_true, if_true, listMe,
      List.foldlM_cons, dsMatchOne, hq, beq_self_eq_true, if_true]
    rfl
  · intro args hlen
    cases args with
    | nil => simp only [«match», hpre, hds, beq_self_eq_true, if_true]
    | cons a rest =>
      cases rest with
      | nil => exact absurd rfl hlen
      | cons b rest2 =>
        simp only [«match», hpre, hds, beq_self_eq_true, if_true]

theorem c8_witness :
    dsFrame.fieldPrefix = some "DSBD_" ∧ strTake "DSBD_" 2 = "DS" ∧
    «match» simpleRegex dsFrame [Arg.s "NODOTS"] = .error (.invalidName "NODOTS") ∧
    «match» simpleRegex dsFrame [] =
      .error (.invalidArguments
        "match keyword requires one parameter containing the data set name") :=
  ⟨rfl, by decide,
    (c8_ds_invalid_name_and_arity simpleRegex dsFrame "DSBD_" rfl (by decide)).1
      "NODOTS" (by decide),
    (c8_ds_invalid_name_and_arity simpleRegex dsFrame "DSBD_" rfl (by decide)).2
      [] (by decide)⟩

/-- C10: on a general-resource table called with a class argument and a
resource name, an empty class narrowing short-circuits: `match` returns the
zero-row frame with the original schema, raising no error and never entering
the per-name matching loop, whatever the second argument is. -/
theorem c10_gr_empty_class_slice (R : Regex) (df : Frame) (p : String)
    (a b : Arg) (s0 : Frame) (hpre : df.fieldPrefix = some p)
    (hgr : strTake p 2 = "GR") (hstart : grStart R df a = .ok s0)
    (hempty : s0.rows = []) :
    «match» R df [a, b] = .ok { df with rows := [] } := by
  simp only [«match», hpre, hgr, show (("GR" : String) == "DS") = false from by decide,
    Bool.false_eq_true, if_false, beq_self_eq_true, if_true, except_bind_ok,
    hstart, hempty, List.isEmpty_nil]
  rw [← hpre]
  rfl

theorem c10_witness :
    grFrame.fieldPrefix = some "GRBD_" ∧ strTake "GRBD_" 2 = "GR" ∧
    grStart simpleRegex grFrame (Arg.s "NOCLASS") = .ok { grFrame with rows := [] } ∧
    «match» simpleRegex grFrame [Arg.s "NOCLASS", Arg.s "BPX.SUPERUSER"] =
      .ok { grFrame with rows := [] } :=
  ⟨rfl, by decide, by decide,
    c10_gr_empty_class_slice simpleRegex grFrame "GRBD_" (Arg.s "NOCLASS")
      (Arg.s "BPX.SUPERUSER") { grFrame with rows := [] } rfl (by decide)
      (by decide) rfl⟩

theorem foldlM_inv {σ α : Type} (step : σ → α → Except Err σ) (P : σ → σ → Prop)
    (hrefl : ∀ s, P s s) (htrans : ∀ a b c, P a b → P b c → P a c)
    (hstep : ∀ s x s2, step s x = .ok s2 → P s s2) :
    ∀ (l : List α) (s s2 : σ), List.foldlM step s l = .ok s2 → P s s2
  | [], s, s2, h => by
    rw [List.foldlM_nil] at h
    have h2 : (Except.ok s : Except Err σ) = .ok s2 := h
    rw [← Except.ok.inj h2]
    exact hrefl s
  | x :: l, s, s2, h => by
    rw [List.foldlM_cons] at h
    cases hx : step s x with
    | error e => rw [hx, except_bind_error] at h; exact Except.noConfusion h
    | ok s1 =>
      rw [hx, except_bind_ok] at h
      exact htrans s s1 s2 (hstep s x s1 hx)
        (foldlM_inv step P hrefl htrans hstep l s1 s2 h)

theorem zip_filter_map_subset (g : Row × Bool → Bool) (rows : List Row)
    (locs : List Bool) : ∀ r ∈ ((rows.zip locs).filter g).map (fun q => q.1), r ∈ rows := by
  intro r hr
  rw [List.mem_map] at hr
  rcases hr with ⟨q, hq, hq1⟩
  rw [List.mem_filter] at hq
  have h2 : (q.1, q.2) ∈ rows.zip locs := hq.1
  rw [← hq1]
  exact (List.of_mem_zip h2).1

theorem maskRows_subset (rows : List Row) (locs : List Bool) :
    ∀ r ∈ maskRows rows locs, r ∈ rows :=
  zip_filter_map_subset (fun q => q.2) rows locs

theorem dropDupAux_subset : ∀ (seen : List (List String)) (rows : List Row),
    ∀ r ∈ dropDupAux seen rows, r ∈ rows
  | _, [] => by intro r hr; exact absurd hr (List.not_mem_nil r)
  | seen, x :: xs => by
    intro r hr
    rw [dropDupAux] at hr
    by_cases hx : seen.contains x.cells = true
    · rw [if_pos hx] at hr
      exact List.mem_cons_of_mem x (dropDupAux_subset seen xs r hr)
    · rw [if_neg hx] at hr
      rcases List.mem_cons.mp hr with h | h
      · rw [h]; exact List.mem_cons_self x xs
      · exact List.mem_cons_of_mem x (dropDupAux_subset (x.cells :: seen) xs r h)

theorem combineFrames_subset (df : Frame) (frames : List Frame) (X : List Row)
    (h : ∀ f ∈ frames, ∀ r ∈ f.rows, r ∈ X) :
    ∀ r ∈ (combineFrames df frames).rows, r ∈ X := by
  intro r hr
  cases frames with
  | nil => exact absurd hr (List.not_mem_nil r)
  | cons f fs =>
    cases fs with
    | nil => exact h f (List.mem_cons_self f []) r hr
    | cons g gs =>
      have hr2 := dropDupAux_subset [] _ r hr
      rcases List.mem_append.mp hr2 with h1 | h1
      · exact h f (List.mem_cons_self f _) r h1
      · rw [List.mem_flatten] at h1
        rcases h1 with ⟨l, hl, hrl⟩
        rw [List.mem_map] at hl
        rcases hl with ⟨f2, hf2, hfl⟩
        exact h f2 (List.mem_cons_of_mem f hf2) r (by rw [hfl]; exact hrl)

theorem nameColFilter_subset (R : Regex) (cols : List String) (nameCol sel : String)
    (rows rows2 : List Row) (h : nameColFilter R cols nameCol sel rows = .ok rows2) :
    ∀ r ∈ rows2, r ∈ rows := by
  rw [nameColFilter] at h
  split at h
  · rw [← Except.ok.inj h]
    intro r hr
    exact (List.mem_filter.mp hr).1
  · exact Except.noConfusion h

theorem filterLike_subset (df : Frame) (q : String) :
    ∀ r ∈ (filterLike df q).rows, r ∈ df.rows := by
  intro r hr
  exact (List.mem_filter.mp hr).1

theorem dsSelect_subset (df : Frame) (rows2 : List Row) (f0 : Frame)
    (h : dsSelect df rows2 = .ok f0) : ∀ r ∈ f0.rows, r ∈ rows2 := by
  rw [dsSelect.eq_def] at h
  split at h
  · rw [← Except.ok.inj h]
    intro r hr
    exact List.take_subset 1 rows2 hr
  · split at h
    · exact Except.noConfusion h
    · rw [← Except.ok.inj h]
      intro r hr
      exact (List.mem_filter.mp hr).1

theorem dsMatchOne_subset (R : Regex) (df : Frame) (pre sel : String)
    (fs : List Frame) (h : dsMatchOne R df pre sel = .ok fs) :
    ∀ f ∈ fs, ∀ r ∈ f.rows, r ∈ df.rows := by
  rw [dsMatchOne] at h
  split at h
  · exact Except.noConfusion h
  · dsimp only at h
    split at h
    · rw [← Except.ok.inj h]
      intro f hf
      exact absurd hf (List.not_mem_nil f)
    · cases hnc : nameColFilter R df.columns (pre ++ "NAME") sel
          (filterLike df (leadQual sel)).rows with
      | error e => rw [hnc, except_bind_error] at h; exact Except.noConfusion h
      | ok rows2 =>
        rw [hnc, except_bind_ok] at h
        cases hds : dsSelect df rows2 with
        | error e => rw [hds, except_bind_error] at h; exact Except.noConfusion h
        | ok f0 =>
          rw [hds, except_bind_ok] at h
          rw [← Except.ok.inj h]
          intro f hf r hr
          rw [List.mem_singleton] at hf
          rw [hf] at hr
          exact filterLike_subset df (leadQual sel) r
            (nameColFilter_subset R df.columns (pre ++ "NAME") sel _ rows2 hnc r
              (dsSelect_subset df rows2 f0 hds r hr))

theorem grStart_subset (R : Regex) (df : Frame) (a : Arg) (s0 : Frame)
    (h : grStart R df a = .ok s0) : ∀ r ∈ s0.rows, r ∈ df.rows := by
  cases a with
  | s c =>
    rw [grStart, find] at h
    cases hm : idxMask R false 0 (SelVal.str c) with
    | error e => rw [hm, except_bind_error] at h; exact Except.noConfusion h
    | ok m =>
      rw [hm, except_bind_ok] at h
      rw [← Except.ok.inj h]
      intro r hr
      exact (List.mem_filter.mp hr).1
  | l cs =>
    rw [grStart] at h
    split at h
    · rw [← Except.ok.inj h]
      intro r hr
      exact (List.mem_filter.mp hr).1
    · exact Except.noConfusion h

theorem grMatchOne_subset (R : Regex) (start : Frame) (pre sel : String) (f : Frame)
    (h : grMatchOne R start pre sel = .ok f) : ∀ r ∈ f.rows, r ∈ start.rows := by
  rw [grMatchOne] at h
  cases hnc : nameColFilter R start.columns (pre ++ "NAME") sel start.rows with
  | error e => rw [hnc, except_bind_error] at h; exact Except.noConfusion h
  | ok rows2 =>
    rw [hnc, except_bind_ok] at h
    cases hcl : classLocs "" Option.none rows2 with
    | error e => rw [hcl, except_bind_error] at h; exact Except.noConfusion h
    | ok locs =>
      rw [hcl, except_bind_ok] at h
      rw [← Except.ok.inj h]
      intro r hr
      exact nameColFilter_subset R start.columns (pre ++ "NAME") sel _ rows2 hnc r
        (maskRows_subset rows2 locs r hr)

theorem match_subset (R : Regex) (df : Frame) (args : List Arg) (res : Frame)
    (h : «match» R df args = .ok res) : ∀ r ∈ res.rows, r ∈ df.rows := by
  rw [«match».eq_def] at h
  cases hpre : df.fieldPrefix with
  | none => rw [hpre] at h; exact Except.noConfusion h
  | some pre =>
    rw [hpre] at h
    dsimp only at h
    by_cases hds : (strTake pre 2 == "DS") = true
    · rw [if_pos hds] at h
      cases args with
      | nil => exact Except.noConfusion h
      | cons a rest =>
        cases rest with
        | cons b rest2 => exact Except.noConfusion h
        | nil =>
          dsimp only at h
          cases hf : List.foldlM
              (fun acc sel => do
                let fs ← dsMatchOne R df pre sel
                Except.ok (acc ++ fs)) [] (listMe a) with
          | error e => rw [hf, except_bind_error] at h; exact Except.noConfusion h
          | ok frames =>
            rw [hf, except_bind_ok] at h
            rw [← Except.ok.inj h]
            refine combineFrames_subset df frames df.rows ?_
            refine foldlM_inv
              (fun (acc : List Frame) (sel : String) => do
                let fs ← dsMatchOne R df pre sel
                Except.ok (acc ++ fs))
              (fun s s2 => (∀ f ∈ s, ∀ r ∈ f.rows, r ∈ df.rows) →
                (∀ f ∈ s2, ∀ r ∈ f.rows, r ∈ df.rows))
              (fun s hs => hs) (fun a2 b2 c2 h1 h2 hs => h2 (h1 hs)) ?_
              (listMe a) [] frames hf (fun f hf2 => absurd hf2 (List.not_mem_nil f))
            intro s x s2 hstep hs
            dsimp only at hstep
            cases hone : dsMatchOne R df pre x with
            | error e => rw [hone, except_bind_error] at hstep; exact Except.noConfusion hstep
            | ok fs =>
              rw [hone, except_bind_ok] at hstep
              rw [← Except.ok.inj hstep]
              intro f hf3
              rcases List.mem_append.mp hf3 with h1 | h1
              · exact hs f h1
              · exact dsMatchOne_subset R df pre x fs hone f h1
    · rw [if_neg hds] at h
      by_cases hgr : (strTake pre 2 == "GR") = true
      · rw [if_pos hgr] at h
        have harity : ∀ (startE : Except Err Frame) (selArg : Arg),
            (startE, selArg).1 = startE → (∀ s1, startE = .ok s1 →
              ∀ r ∈ s1.rows, r ∈ df.rows) →
            (do
              let start ← startE
              if start.rows.isEmpty then Except.ok (combineFrames df [])
              else do
                let frames ← (listMe selArg).foldlM
                  (fun acc sel => do
                    let f ← grMatchOne R start pre sel
                    Except.ok (acc ++ [f])) []
                Except.ok (combineFrames df frames)) = .ok res →
            ∀ r ∈ res.rows, r ∈ df.rows := by
          intro startE selArg _ hsub hrun
          cases hst : startE with
          | error e => rw [hst, except_bind_error] at hrun; exact Except.noConfusion hrun
          | ok s1 =>
            rw [hst, except_bind_ok] at hrun
            by_cases hemp : s1.rows.isEmpty = true
            · rw [if_pos hemp] at hrun
              rw [← Except.ok.inj hrun]
              intro r hr
              exact absurd hr (List.not_mem_nil r)
            · rw [if_neg hemp] at hrun
              cases hf : List.foldlM
                  (fun acc sel => do
                    let f ← grMatchOne R s1 pre sel
                    Except.ok (acc ++ [f])) [] (listMe selArg) with
              | error e => rw [hf, except_bind_error] at hrun; exact Except.noConfusion hrun
              | ok frames =>
                rw [hf, except_bind_ok] at hrun
                rw [← Except.ok.inj hrun]
                refine combineFrames_subset df frames df.rows ?_
                refine foldlM_inv
                  (fun (acc : List Frame) (sel : String) => do
                    let f ← grMatchOne R s1 pre sel
                    Except.ok (acc ++ [f]))
                  (fun s s2 => (∀ f ∈ s, ∀ r ∈ f.rows, r ∈ df.rows) →
                    (∀ f ∈ s2, ∀ r ∈ f.rows, r ∈ df.rows))
                  (fun s hs => hs) (fun a2 b2 c2 h1 h2 hs => h2 (h1 hs)) ?_
                  (listMe selArg) [] frames hf
                  (fun f hf2 => absurd hf2 (List.not_mem_nil f))
                intro s x s2 hstep hs
                dsimp only at hstep
                cases hone : grMatchOne R s1 pre x with
                | error e =>
                  rw [hone, except_bind_error] at hstep; exact Except.noConfusion hstep
                | ok f0 =>
                  rw [hone, except_bind_ok] at hstep
                  rw [← Except.ok.inj hstep]
                  intro f hf3
                  rcases List.mem_append.mp hf3 with h1 | h1
                  · exact hs f h1
                  · rw [List.mem_singleton] at h1
                    rw [h1]
                    intro r hr
                    exact hsub s1 hst r (grMatchOne_subset R s1 pre x f0 hone r hr)
        cases args with
        | nil => exact Except.noConfusion h
        | cons a rest =>
          cases rest with
          | nil =>
            dsimp only at h
            exact harity (Except.ok df) a rfl
              (fun s1 hs1 r hr => by rw [← Except.ok.inj hs1] at hr; exact hr) h
          | cons b rest2 =>
            cases rest2 with
            | nil =>
              dsimp only at h
              exact harity (grStart R df a) b rfl
                (fun s1 hs1 => grStart_subset R df a s1 hs1) h
            | cons c rest3 => exact Except.noConfusion h
      · rw [if_neg hgr] at h
        exact Except.noConfusion h

theorem applyMask_subset (ex : Bool) (st : FState) (m : Row → Bool) :
    ∀ r ∈ (applyMask ex st m).cur.rows, r ∈ st.cur.rows := by
  cases ex
  · intro r hr
    exact (List.mem_filter.mp hr).1
  · intro r hr
    exact hr

theorem idxStep_sub (R : Regex) (rp ex : Bool) (st : FState) (p : Nat × SelVal)
    (st2 : FState) (h : idxStep R rp ex st p = .ok st2) :
    ∀ r ∈ st2.cur.rows, r ∈ st.cur.rows := by
  rw [idxStep] at h
  split at h
  · rw [← Except.ok.inj h]
    intro r hr
    exact hr
  · cases hm : idxMask R rp p.1 p.2 with
    | error e => rw [hm, except_bind_error] at h; exact Except.noConfusion h
    | ok m =>
      rw [hm, except_bind_ok] at h
      rw [← Except.ok.inj h]
      exact applyMask_subset ex st m

theorem colStep_sub (R : Regex) (rp ex : Bool) (st : FState) (p : String × SelVal)
    (st2 : FState) (h : colStep R rp ex st p = .ok st2) :
    ∀ r ∈ st2.cur.rows, r ∈ st.cur.rows := by
  rw [colStep] at h
  cases hm : colMask R rp st.cur.columns p.1 p.2 with
  | error e => rw [hm, except_bind_error] at h; exact Except.noConfusion h
  | ok m =>
    rw [hm, except_bind_ok] at h
    rw [← Except.ok.inj h]
    exact applyMask_subset ex st m

theorem kwdStep_sub (R : Regex) (ex : Bool) (kV : List (String × String))
    (acc : FState × List (String × SelVal)) (p : String × SelVal)
    (acc2 : FState × List (String × SelVal)) (h : kwdStep R ex kV acc p = .ok acc2) :
    ∀ r ∈ acc2.1.cur.rows, r ∈ acc.1.cur.rows := by
  rw [kwdStep] at h
  dsimp only at h
  split at h
  · cases hpre : acc.1.cur.fieldPrefix with
    | none => rw [hpre] at h; exact Except.noConfusion h
    | some pre =>
      rw [hpre] at h
      dsimp only at h
      split at h
      · cases harg : selToArg p.2 with
        | error e => rw [harg, except_bind_error] at h; exact Except.noConfusion h
        | ok arg =>
          rw [harg, except_bind_ok] at h
          cases hm : «match» R acc.1.cur [arg] with
          | error e => rw [hm, except_bind_error] at h; exact Except.noConfusion h
          | ok mres =>
            rw [hm, except_bind_ok] at h
            split at h
            · rw [← Except.ok.inj h]
              intro r hr
              exact hr
            · rw [← Except.ok.inj h]
              exact match_subset R acc.1.cur [arg] mres hm
      · exact Except.noConfusion h
  · cases hc : resolveKwd kV acc.1.cur.columns acc.1.cur.fieldPrefix p.1 p.2 with
    | error e => rw [hc, except_bind_error] at h; exact Except.noConfusion h
    | ok c =>
      rw [hc, except_bind_ok] at h
      rw [← Except.ok.inj h]
      intro r hr
      exact hr

theorem frameFilter_subset (R : Regex) (df : Frame) (selection : List SelVal)
    (kV : List (String × String)) (ui ex rp : Bool) (kwds : List (String × SelVal))
    (res : Frame) (h : _frameFilter R df selection kV ui ex rp kwds = .ok res) :
    ∀ r ∈ res.rows, r ∈ df.rows := by
  have main : ∀ (p1 : FState × List (String × SelVal)),
      (∀ r ∈ p1.1.cur.rows, r ∈ df.rows) →
      ((List.foldlM (kwdStep R ex kV) p1 kwds >>= fun p2 =>
          List.foldlM (colStep R rp ex) p2.1 p2.2 >>= fun st3 =>
          if ex then
            Except.ok { df with rows :=
              ((df.rows.zip st3.locs).filter (fun q => !q.2)).map (fun q => q.1) }
          else Except.ok st3.cur) = .ok res) →
      ∀ r ∈ res.rows, r ∈ df.rows := by
    intro p1 hsub hrun
    cases h2 : List.foldlM (kwdStep R ex kV) p1 kwds with
    | error e => rw [h2, except_bind_error] at hrun; exact Except.noConfusion hrun
    | ok p2 =>
      rw [h2, except_bind_ok] at hrun
      cases h3 : List.foldlM (colStep R rp ex) p2.1 p2.2 with
      | error e => rw [h3, except_bind_error] at hrun; exact Except.noConfusion hrun
      | ok st3 =>
        rw [h3, except_bind_ok] at hrun
        have hB : ∀ r ∈ p2.1.cur.rows, r ∈ p1.1.cur.rows :=
          foldlM_inv (kwdStep R ex kV)
            (fun a b => ∀ r ∈ b.1.cur.rows, r ∈ a.1.cur.rows)
            (fun s r hr => hr)
            (fun a b c hab hbc r hr => hab r (hbc r hr))
            (fun s x s2 hs => kwdStep_sub R ex kV s x s2 hs)
            kwds p1 p2 h2
        have hC : ∀ r ∈ st3.cur.rows, r ∈ p2.1.cur.rows :=
          foldlM_inv (colStep R rp ex)
            (fun a b => ∀ r ∈ b.cur.rows, r ∈ a.cur.rows)
            (fun s r hr => hr)
            (fun a b c hab hbc r hr => hab r (hbc r hr))
            (fun s x s2 hs => colStep_sub R rp ex s x s2 hs)
            p2.2 p2.1 st3 h3
        cases ex
        case true =>
          rw [if_pos rfl] at hrun
          rw [← Except.ok.inj hrun]
          exact zip_filter_map_subset (fun q => !q.2) df.rows st3.locs
        case false =>
          rw [if_neg (by simp)] at hrun
          rw [← Except.ok.inj hrun]
          intro r hr
          exact hsub r (hB r (hC r hr))
  simp only [_frameFilter] at h
  cases ui
  case true =>
    rw [if_pos rfl] at h
    cases h1 : idxFold R rp ex selection.enum ⟨df, df.rows.map fun _ => true⟩ with
    | error e => rw [h1, except_bind_error] at h; exact Except.noConfusion h
    | ok st1 =>
      rw [h1, except_bind_ok, except_bind_ok] at h
      refine main (st1, []) ?_ h
      exact foldlM_inv (idxStep R rp ex)
        (fun a b => ∀ r ∈ b.cur.rows, r ∈ a.cur.rows)
        (fun s r hr => hr)
        (fun a b c hab hbc r hr => hab r (hbc r hr))
        (fun s x s2 hs => idxStep_sub R rp ex s x s2 hs)
        selection.enum ⟨df, df.rows.map fun _ => true⟩ st1 h1
  case false =>
    rw [if_neg (by simp)] at h
    cases hpos : posResolve df.columns rp selection.enum with
    | error e => rw [hpos, except_bind_error] at h; exact Except.noConfusion h
    | ok cs =>
      rw [hpos, except_bind_ok, except_bind_ok] at h
      refine main (⟨df, df.rows.map fun _ => true⟩, cs) ?_ h
      intro r hr
      exact hr

/-- C9: neither the filter engine nor the profile resolver creates rows:
every row of any successful result of `_frameFilter` or `match` is a row of
the input table.  The embedding is purely functional, so the input frame is
never modified; this theorem states the remaining content of the claim, that
results are narrowed views of the input. -/
theorem c9_results_are_narrowed_views (R : Regex) (df : Frame)
    (selection : List SelVal) (kV : List (String × String)) (ui ex rp : Bool)
    (kwds : List (String × SelVal)) (args : List Arg) :
    (∀ res, _frameFilter R df selection kV ui ex rp kwds = .ok res →
      ∀ r ∈ res.rows, r ∈ df.rows) ∧
    (∀ res, «match» R df args = .ok res → ∀ r ∈ res.rows, r ∈ df.rows) :=
  ⟨fun res h => frameFilter_subset R df selection kV ui ex rp kwds res h,
   fun res h => match_subset R df args res h⟩

theorem maskRows_cons (x : Row) (xs : List Row) (b : Bool) (locs : List Bool) :
    maskRows (x :: xs) (b :: locs) =
      if b then x :: maskRows xs locs else maskRows xs locs := by
  rw [maskRows, List.zip_cons_cons, List.filter_cons]
  cases b
  · simp only [Bool.false_eq_true, if_false]
    rfl
  · simp only [if_true, List.map_cons]
    rfl

theorem mem_runs : ∀ (l : List String) (x : String), x ∈ runs l ↔ x ∈ l
  | [], x => by rw [runs]
  | [c], x => by rw [runs]
  | c :: c2 :: cs, x => by
    rw [runs]
    by_cases h : (c == c2) = true
    · rw [if_pos h, mem_runs (c2 :: cs) x]
      have hc : c = c2 := by
        rw [← beq_iff_eq]
        exact h
      constructor
      · intro hx
        exact List.mem_cons_of_mem c hx
      · intro hx
        rcases List.mem_cons.mp hx with h1 | h1
        · rw [h1, hc]
          exact List.mem_cons_self c2 cs
        · exact h1
    · rw [if_neg h]
      constructor
      · intro hx
        rcases List.mem_cons.mp hx with h1 | h1
        · rw [h1]
          exact List.mem_cons_self c (c2 :: cs)
        · exact List.mem_cons_of_mem c ((mem_runs (c2 :: cs) x).mp h1)
      · intro hx
        rcases List.mem_cons.mp hx with h1 | h1
        · rw [h1]
          exact List.mem_cons_self c _
        · exact List.mem_cons_of_mem c ((mem_runs (c2 :: cs) x).mpr h1)

theorem runs_nodup_tail (c : String) (l : List String)
    (h : (runs (c :: l)).Nodup) : (runs l).Nodup := by
  cases l with
  | nil => rw [runs]; exact List.nodup_nil
  | cons c2 cs =>
    rw [runs] at h
    by_cases hc : (c == c2) = true
    · rw [if_pos hc] at h
      exact h
    · rw [if_neg hc] at h
      exact h.of_cons

theorem runs_no_revisit (pc c : String) (l : List String)
    (h : (runs (pc :: c :: l)).Nodup) (hne : pc ≠ c) : pc ∉ c :: l := by
  rw [runs, if_neg (by simp [hne])] at h
  intro hmem
  exact (List.nodup_cons.mp h).1 ((mem_runs (c :: l) pc).mpr hmem)

theorem classLocs_keep : ∀ (rows : List Row) (pc prv : String) (locs : List Bool),
    classLocs pc (some prv) rows = .ok locs →
    (runs (pc :: rows.map (fun x => idxVal x 0))).Nodup →
    ∀ r ∈ maskRows rows locs,
      (idxVal r 0 = pc ∧ idxVal r 1 = prv) ∨
      (idxVal r 0 ≠ pc ∧
        ∃ r0, rows.find? (fun x => idxVal x 0 == idxVal r 0) = some r0 ∧
          idxVal r 1 = idxVal r0 1)
  | [], pc, prv, locs, h, _ => by
    rw [classLocs] at h
    rw [← Except.ok.inj h]
    intro r hr
    exact absurd hr (List.not_mem_nil r)
  | x :: xs, pc, prv, locs, h, hruns => by
    rw [classLocs] at h
    split at h
    · exact Except.noConfusion h
    · by_cases hx : (idxVal x 0 != pc) = true
      · rw [if_pos hx] at h
        have hxne : idxVal x 0 ≠ pc := by
          intro he
          rw [he] at hx
          simp at hx
        cases hrest : classLocs (idxVal x 0) (some (idxVal x 1)) xs with
        | error e => rw [hrest, except_bind_error] at h; exact Except.noConfusion h
        | ok rest =>
          rw [hrest, except_bind_ok] at h
          rw [← Except.ok.inj h]
          intro r hr
          rw [maskRows_cons, if_pos rfl] at hr
          have hruns2 : (runs (idxVal x 0 :: xs.map (fun y => idxVal y 0))).Nodup := by
            rw [List.map_cons] at hruns
            exact runs_nodup_tail pc _ hruns
          rcases List.mem_cons.mp hr with h1 | h1
          · refine Or.inr ⟨by rw [h1]; exact hxne, x, ?_, by rw [h1]⟩
            rw [List.find?_cons_of_pos _ (by rw [h1]; exact beq_self_eq_true _)]
          · have ihres := classLocs_keep xs (idxVal x 0) (idxVal x 1) rest hrest hruns2 r h1
            have hrnotpc : idxVal r 0 ≠ pc := by
              have hmem : idxVal r 0 ∈ (x :: xs).map (fun y => idxVal y 0) := by
                rw [List.map_cons]
                exact List.mem_cons_of_mem _
                  (List.mem_map_of_mem (fun y => idxVal y 0)
                    (maskRows_subset xs rest r h1))
              intro he
              rw [List.map_cons] at hruns hmem
              have := runs_no_revisit pc (idxVal x 0) (xs.map fun y => idxVal y 0)
                hruns (fun hh => hxne hh.symm)
              rw [he] at hmem
              exact this hmem
            rcases ihres with ⟨hc, hres⟩ | ⟨hc, r0, hfind, hres⟩
            · refine Or.inr ⟨by rw [hc]; exact hxne, x, ?_, by rw [hres]⟩
              rw [List.find?_cons_of_pos _ (by rw [hc]; exact beq_self_eq_true _)]
            · refine Or.inr ⟨hrnotpc, r0, ?_, hres⟩
              rw [List.find?_cons_of_neg _
                (by simp only [beq_iff_eq]; exact fun hh => hc hh.symm), hfind]
      · rw [if_neg hx] at h
        dsimp only at h
        have hxeq : idxVal x 0 = pc := by
          by_contra hne2
          rw [bne] at hx
          simp [hne2] at hx
        cases hrest : classLocs pc (some prv) xs with
        | error e => rw [hrest, except_bind_error] at h; exact Except.noConfusion h
        | ok rest =>
          rw [hrest, except_bind_ok] at h
          rw [← Except.ok.inj h]
          intro r hr
          rw [maskRows_cons] at hr
          have hruns2 : (runs (pc :: xs.map (fun y => idxVal y 0))).Nodup := by
            rw [List.map_cons, hxeq, runs, if_pos (beq_self_eq_true pc)] at hruns
            exact hruns
          have step : ∀ r2 ∈ maskRows xs rest,
              (idxVal r2 0 = pc ∧ idxVal r2 1 = prv) ∨
              (idxVal r2 0 ≠ pc ∧
                ∃ r0, (x :: xs).find? (fun y => idxVal y 0 == idxVal r2 0) = some r0 ∧
                  idxVal r2 1 = idxVal r0 1) := by
            intro r2 h2
            rcases classLocs_keep xs pc prv rest hrest hruns2 r2 h2 with
              ⟨hc, hres⟩ | ⟨hc, r0, hfind, hres⟩
            · exact Or.inl ⟨hc, hres⟩
            · refine Or.inr ⟨hc, r0, ?_, hres⟩
              rw [List.find?_cons_of_neg _
                (by rw [hxeq]; simp only [beq_iff_eq]; exact fun hh => hc hh.symm), hfind]
          by_cases hb : (idxVal x 1 == prv) = true
          · rw [if_pos hb] at hr
            rcases List.mem_cons.mp hr with h1 | h1
            · exact Or.inl ⟨by rw [h1]; exact hxeq, by rw [h1]; rw [← beq_iff_eq]; exact hb⟩
            · exact step r h1
          · rw [if_neg hb] at hr
            exact step r hr

theorem classLocs_first_profile (rows : List Row) (locs : List Bool)
    (h : classLocs "" Option.none rows = .ok locs)
    (hcontig : (runs (rows.map (fun x => idxVal x 0))).Nodup)
    (hne : ∀ r ∈ rows, idxVal r 0 ≠ "") :
    ∀ r ∈ maskRows rows locs,
      ∃ r0, rows.find? (fun x => idxVal x 0 == idxVal r 0) = some r0 ∧
        idxVal r 1 = idxVal r0 1 := by
  cases rows with
  | nil =>
    rw [classLocs] at h
    rw [← Except.ok.inj h]
    intro r hr
    exact absurd hr (List.not_mem_nil r)
  | cons x xs =>
    rw [classLocs] at h
    split at h
    · exact Except.noConfusion h
    · have hx : (idxVal x 0 != "") = true := by
        rw [bne]
        simp [hne x (List.mem_cons_self x xs)]
      rw [if_pos hx] at h
      cases hrest : classLocs (idxVal x 0) (some (idxVal x 1)) xs with
      | error e => rw [hrest, except_bind_error] at h; exact Except.noConfusion h
      | ok rest =>
        rw [hrest, except_bind_ok] at h
        rw [← Except.ok.inj h]
        intro r hr
        rw [maskRows_cons, if_pos rfl] at hr
        have hruns2 : (runs (idxVal x 0 :: xs.map (fun y => idxVal y 0))).Nodup := by
          rw [List.map_cons] at hcontig
          exact hcontig
        rcases List.mem_cons.mp hr with h1 | h1
        · refine ⟨x, ?_, by rw [h1]⟩
          rw [List.find?_cons_of_pos _ (by rw [h1]; exact beq_self_eq_true _)]
        · rcases classLocs_keep xs (idxVal x 0) (idxVal x 1) rest hrest hruns2 r h1 with
            ⟨hc, hres⟩ | ⟨hc, r0, hfind, hres⟩
          · refine ⟨x, ?_, by rw [hres]⟩
            rw [List.find?_cons_of_pos _ (by rw [hc]; exact beq_self_eq_true _)]
          · refine ⟨r0, ?_, hres⟩
            rw [List.find?_cons_of_neg _
                (by simp only [beq_iff_eq]; exact fun hh => hc hh.symm), hfind]

/-- C3 counterexample: on a general-resource table whose FACILITY rows are
interleaved with an XFACILIT row, `match` returns all three matching rows —
including `BPX.SUPERUSER`, a second matching profile of class FACILITY whose
resource differs from the first matching FACILITY row `BPX.*`.  The
precedence walk restarts at every contiguous class run, so the first-per-class
rule fails on non-contiguous tables. -/
theorem c3_second_profile_returned :
    «match» simpleRegex grFrame [Arg.s "BPX.SUPERUSER"] =
      .ok { grFrame with rows := grFrame.rows } ∧
    grFrame.rows.find? (fun x => idxVal x 0 == "FACILITY") =
      some ⟨["FACILITY", "BPX.*"], ["BPX.*"]⟩ ∧
    (⟨["FACILITY", "BPX.SUPERUSER"], ["BPX.SUPERUSER"]⟩ : Row) ∈ grFrame.rows ∧
    idxVal (⟨["FACILITY", "BPX.SUPERUSER"], ["BPX.SUPERUSER"]⟩ : Row) 0 = "FACILITY" ∧
    idxVal (⟨["FACILITY", "BPX.SUPERUSER"], ["BPX.SUPERUSER"]⟩ : Row) 1 ≠
      idxVal (⟨["FACILITY", "BPX.*"], ["BPX.*"]⟩ : Row) 1 :=
  ⟨by decide, by decide, by decide, by decide, by decide⟩

/-- C3 (amended): on a general-resource table whose filtered rows keep each
class contiguous (as a sorted index does) and whose class labels are
non-empty, every row returned by a single-name `match` carries the class and
resource of the first filtered row of its class: only the first matching
profile per class survives.  Without contiguity the walk restarts per class
run. -/
theorem c3_first_profile_per_class (R : Regex) (df : Frame) (p nm : String)
    (res : Frame) (hpre : df.fieldPrefix = some p) (hgr : strTake p 2 = "GR")
    (h : «match» R df [Arg.s nm] = .ok res)
    (hcontig : (runs ((df.rows.filter (nameMatchPred R df.columns (p ++ "NAME") nm)).map
      (fun x => idxVal x 0))).Nodup)
    (hne : ∀ r ∈ df.rows.filter (nameMatchPred R df.columns (p ++ "NAME") nm),
      idxVal r 0 ≠ "") :
    ∀ r ∈ res.rows,
      ∃ r0, (df.rows.filter (nameMatchPred R df.columns (p ++ "NAME") nm)).find?
          (fun x => idxVal x 0 == idxVal r 0) = some r0 ∧
        idxVal r 1 = idxVal r0 1 := by
  rw [«match».eq_def, hpre] at h
  try dsimp only at h
  rw [if_neg (by simp [hgr]), if_pos (by simp [hgr])] at h
  try dsimp only at h
  rw [except_bind_ok] at h
  try dsimp only at h
  rw [except_bind_ok] at h
  by_cases hemp : df.rows.isEmpty = true
  · rw [if_pos hemp] at h
    rw [← Except.ok.inj h]
    intro r hr
    exact absurd hr (List.not_mem_nil r)
  · rw [if_neg hemp] at h
    dsimp only [listMe] at h
    rw [List.foldlM_cons] at h
    rw [grMatchOne] at h
    cases hnc : nameColFilter R df.columns (p ++ "NAME") nm df.rows with
    | error e =>
      rw [hnc, except_bind_error, except_bind_error, except_bind_error] at h
      exact Except.noConfusion h
    | ok rows2 =>
      rw [hnc, except_bind_ok] at h
      cases hcl : classLocs "" Option.none rows2 with
      | error e =>
        rw [hcl, except_bind_error, except_bind_error, except_bind_error] at h
        exact Except.noConfusion h
      | ok locs =>
        rw [hcl, except_bind_ok] at h
        simp only [except_bind_ok, List.nil_append, List.foldlM_nil] at h
        have hrows2 : rows2 = df.rows.filter (nameMatchPred R df.columns (p ++ "NAME") nm) := by
          rw [nameColFilter] at hnc
          split at hnc
          · exact (Except.ok.inj hnc).symm
          · exact Except.noConfusion hnc
        have h2 : Except.ok (combineFrames df
            [{ df with rows := maskRows rows2 locs }]) = Except.ok res := h
        have hres : res.rows = maskRows rows2 locs := by
          rw [← Except.ok.inj h2]
          rfl
        rw [hres]
        rw [hrows2] at hcl ⊢
        exact classLocs_first_profile _ locs hcl hcontig hne

theorem c3_witness :
    grSortedFrame.fieldPrefix = some "GRBD_" ∧ strTake "GRBD_" 2 = "GR" ∧
    «match» simpleRegex grSortedFrame [Arg.s "BPX.SUPERUSER"] = .ok grSortedResult ∧
    (∀ r ∈ grSortedResult.rows,
      ∃ r0, (grSortedFrame.rows.filter (nameMatchPred simpleRegex grSortedFrame.columns
          ("GRBD_" ++ "NAME") "BPX.SUPERUSER")).find?
          (fun x => idxVal x 0 == idxVal r 0) = some r0 ∧
        idxVal r 1 = idxVal r0 1) :=
  ⟨rfl, by decide, by decide,
    c3_first_profile_per_class simpleRegex grSortedFrame "GRBD_" "BPX.SUPERUSER"
      grSortedResult rfl (by decide) (by decide) (by decide) (by decide)⟩

theorem leadQual_ne (s : String) (h : chContains s '.' = true) :
    (leadQual s == "") = false := by
  rw [leadQual, if_pos h, beq_eq_false_iff_ne]
  intro hc
  have hdata := congrArg String.data hc
  simp only [show ("" : String).data = [] from rfl] at hdata
  simp at hdata

theorem dsMatchOne_total (R : Regex) (df : Frame) (p s : String)
    (hcol : df.columns.contains (p ++ "NAME") = true)
    (hdot : chContains s '.' = true)
    (hnz : df.indexNames.length ≠ 1 →
      (filterLike df (leadQual s)).rows ≠ [] →
      (filterLike df (leadQual s)).rows.filter
        (nameMatchPred R df.columns (p ++ "NAME") s) ≠ []) :
    ∃ fs, dsMatchOne R df p s = .ok fs := by
  rw [dsMatchOne]
  try dsimp only
  rw [if_neg (by simp [leadQual_ne s hdot])]
  by_cases hemp : (filterLike df (leadQual s)).rows.isEmpty = true
  · rw [if_pos hemp]
    exact ⟨[], rfl⟩
  · rw [if_neg hemp]
    rw [nameColFilter, if_pos hcol, except_bind_ok]
    rw [dsSelect.eq_def]
    by_cases hlen : (df.indexNames.length == 1) = true
    · rw [if_pos hlen, except_bind_ok]
      exact ⟨_, rfl⟩
    · rw [if_neg hlen]
      have hne2 : (filterLike df (leadQual s)).rows.filter
          (nameMatchPred R df.columns (p ++ "NAME") s) ≠ [] :=
        hnz (by simpa using hlen) (by simpa using hemp)
      cases hf : (filterLike df (leadQual s)).rows.filter
          (nameMatchPred R df.columns (p ++ "NAME") s) with
      | nil => exact absurd hf hne2
      | cons r0 t =>
        exact ⟨_, rfl⟩

theorem dsLoop_total (R : Regex) (df : Frame) (p : String)
    (hcol : df.columns.contains (p ++ "NAME") = true) :
    ∀ (names : List String) (acc : List Frame),
    (∀ s ∈ names, chContains s '.' = true) →
    (∀ s ∈ names, df.indexNames.length ≠ 1 →
      (filterLike df (leadQual s)).rows ≠ [] →
      (filterLike df (leadQual s)).rows.filter
        (nameMatchPred R df.columns (p ++ "NAME") s) ≠ []) →
    ∃ frames, List.foldlM (fun acc2 sel => do
        let fs ← dsMatchOne R df p sel
        Except.ok (acc2 ++ fs)) acc names = .ok frames
  | [], acc, _, _ => ⟨acc, rfl⟩
  | s :: rest, acc, hdot, hnz => by
    rw [List.foldlM_cons]
    rcases dsMatchOne_total R df p s hcol (hdot s (List.mem_cons_self s rest))
      (hnz s (List.mem_cons_self s rest)) with ⟨fs, hfs⟩
    try dsimp only
    rw [hfs, except_bind_ok, except_bind_ok]
    exact dsLoop_total R df p hcol rest (acc ++ fs)
      (fun q hq => hdot q (List.mem_cons_of_mem s hq))
      (fun q hq => hnz q (List.mem_cons_of_mem s hq))

/-- C6 counterexample: on a dataset permission table with a multi-level
index, a qualified name whose qualifier narrowing keeps a row that the
pattern step then rejects makes `match` fail (`result.index[0]` on an empty
frame), instead of skipping the name. -/
theorem c6_permission_table_index_error :
    dsaccFrame.fieldPrefix = some "DSACC_" ∧ strTake "DSACC_" 2 = "DS" ∧
    chContains "SYS1.PROCLIB" '.' = true ∧
    «match» simpleRegex dsaccFrame [Arg.s "SYS1.PROCLIB"] = .error .indexError :=
  ⟨rfl, by decide, by decide, by decide⟩

/-- C6 (amended): on a dataset-schema table, `match` with one positional
argument terminates without an error provided every queried name contains a
qualifier separator, the profile-name column exists, and — on multi-level
index tables only — every name whose qualifier narrowing keeps rows also
keeps at least one row through the pattern-match step.  A name whose
narrowing keeps no rows is skipped.  On single-level tables the extra
condition is vacuous. -/
theorem c6_ds_match_terminates (R : Regex) (df : Frame) (p : String) (a : Arg)
    (hpre : df.fieldPrefix = some p) (hds : strTake p 2 = "DS")
    (hcol : df.columns.contains (p ++ "NAME") = true)
    (hdot : ∀ s ∈ listMe a, chContains s '.' = true)
    (hnz : ∀ s ∈ listMe a, df.indexNames.length ≠ 1 →
      (filterLike df (leadQual s)).rows ≠ [] →
      (filterLike df (leadQual s)).rows.filter
        (nameMatchPred R df.columns (p ++ "NAME") s) ≠ []) :
    ∃ out, «match» R df [a] = .ok out := by
  rw [«match».eq_def, hpre]
  try dsimp only
  rw [if_pos (by simp [hds])]
  rcases dsLoop_total R df p hcol (listMe a) [] hdot hnz with ⟨frames, hframes⟩
  rw [hframes, except_bind_ok]
  exact ⟨_, rfl⟩

theorem c6_witness :
    dsFrame.fieldPrefix = some "DSBD_" ∧ strTake "DSBD_" 2 = "DS" ∧
    dsFrame.columns.contains ("DSBD_" ++ "NAME") = true ∧
    (∃ out, «match» simpleRegex dsFrame [Arg.s "SYS1.PROCLIB"] = .ok out) :=
  ⟨rfl, by decide, by decide,
    c6_ds_match_terminates simpleRegex dsFrame "DSBD_" (Arg.s "SYS1.PROCLIB")
      rfl (by decide) (by decide) (by decide) (by decide)⟩
